import Mathlib

/-
Verification of the chora-store entity repository, conflict resolution and
sync layer.  The definitions below are a shallow embedding of the Python
sources:
  - models.py        : Entity, Entity.copy, Entity.to_dict / from_dict
  - schema.py        : the SQLite schema constraints and the entity_versions
                       change-log table
  - repository.py    : EntityRepository.create / read / update / delete /
                       get_changes_since over an explicit store state
  - conflict.py      : Conflict, MergeFieldsResolver.resolve, detect_conflict
  - syncable_repository.py : SyncableRepository.sync_with and
                       _apply_entity_change; the ChangeTracker collaborator is
                       not part of this repository (it lives in the external
                       chora_sync package) and is modelled from the spec.
Machine integers are modelled as Int / Nat, timestamps as Nat instants
(datetime.isoformat round-trips through fromisoformat, so a row stores the
instant itself), fallible Python code returns Except.
-/

/-- Time instants stand in for datetime values; isoformat round-trips, so rows
store the instant directly. -/
abbrev Time := Nat

/-- JSON-shaped Python values, as stored in an entity data payload and in the
dictionaries handled by the conflict resolvers. -/
inductive JVal where
  | null
  | bool (b : Bool)
  | num (n : Int)
  | str (s : String)
  | arr (elems : List JVal)
  | obj (fields : List (String × JVal))
deriving Repr, Inhabited

/-- Python dictionaries with string keys, in insertion order. -/
abbrev PyDict := List (String × JVal)

namespace JVal

/-- First value stored under a key, mirroring Python dictionary lookup
(keys of a Python dict are unique, so the first hit is the only one). -/
def lookupKey (k : String) : PyDict → Option JVal
  | [] => none
  | (k2, v) :: rest => if k2 = k then some v else lookupKey k rest

/-- Python dict.get(key): the stored value, or None when the key is absent. -/
def pyGet (d : PyDict) (k : String) : JVal :=
  (lookupKey k d).getD .null

/-- Test for the Python None value. -/
def isNull : JVal → Bool
  | .null => true
  | _ => false

/-- Python structural equality on JSON-shaped values: dictionaries compare by
key set and per-key values, irrespective of insertion order; lists compare
pointwise. -/
def pyEq : JVal → JVal → Bool
  | .null, .null => true
  | .bool a, .bool b => a == b
  | .num a, .num b => a == b
  | .str a, .str b => a == b
  | .arr xs, .arr ys =>
      xs.length == ys.length &&
      (xs.zip ys).attach.all (fun p => pyEq p.1.1 p.1.2)
  | .obj xs, .obj ys =>
      (ys.all (fun q => (lookupKey q.1 xs).isSome)) &&
      xs.attach.all (fun p =>
        match lookupKey p.1.1 ys with
        | some w => pyEq p.1.2 w
        | none => false)
  | _, _ => false
termination_by a b => sizeOf a
decreasing_by
  · have hm := List.of_mem_zip p.2
    have h1 : sizeOf p.1.1 < sizeOf xs := List.sizeOf_lt_of_mem hm.1
    simp only [JVal.arr.sizeOf_spec]
    omega
  · have hm : sizeOf p.1 < sizeOf xs := List.sizeOf_lt_of_mem p.2
    have h2 : sizeOf p.1.2 < sizeOf p.1 := by
      obtain ⟨k, v⟩ := p.1
      simp only [Prod.mk.sizeOf_spec]
      omega
    simp only [JVal.obj.sizeOf_spec]
    omega

end JVal

/-- Digits of a natural number, most significant first; the fuel argument makes
the recursion structural so that concrete values evaluate. -/
def natDigitsAux : Nat → Nat → List Char → List Char
  | 0, _, acc => acc
  | fuel + 1, n, acc =>
      let d := Char.ofNat (48 + n % 10)
      if n < 10 then d :: acc else natDigitsAux fuel (n / 10) (d :: acc)

/-- Decimal representation of a natural number, as Python str produces it. -/
def natToStr (n : Nat) : String :=
  String.mk (natDigitsAux (n + 1) n [])

/-- Decimal representation of an integer, as Python str produces it. -/
def intToStr : Int → String
  | .ofNat n => natToStr n
  | .negSucc n => "-" ++ natToStr (n + 1)

/-- Value of the longest digit run at the head of a character list, the core of
an SQLite CAST of TEXT to INTEGER. -/
def digitsPrefixVal (cs : List Char) : Int :=
  ((cs.takeWhile (·.isDigit)).foldl (fun a c => a * 10 + (c.toNat - 48)) 0 : Nat)

/-- SQLite CAST of a TEXT value to INTEGER: skip leading spaces, read an
optional sign and the longest digit run; anything else yields 0. -/
def castTextToInt (s : String) : Int :=
  match s.toList.dropWhile (· = ' ') with
  | '-' :: rest => -(digitsPrefixVal rest)
  | '+' :: rest => digitsPrefixVal rest
  | cs => digitsPrefixVal cs

/-- SQLite INSTR(s, c): 1-based position of the first occurrence, 0 if none. -/
def sqliteInstr (s : String) (c : Char) : Nat :=
  match s.toList.findIdx? (· = c) with
  | some i => i + 1
  | none => 0

/-- SQLite SUBSTR(s, y): the suffix starting at 1-based position y. -/
def sqliteSubstrFrom (s : String) (y : Nat) : String :=
  String.mk (s.toList.drop (y - 1))

/-- Counter that get_changes_since extracts from a change-log row id, by the
SQL expression CAST(SUBSTR(id, INSTR(id, chr(58)) + 1) AS INTEGER). -/
def parsedCounter (s : String) : Int :=
  castTextToInt (sqliteSubstrFrom s (sqliteInstr s ':' + 1))

/-- Reading the digits of n back in base 10 yields n; helper for the decimal
round-trip below. -/
def pushNum (a n : Nat) : Nat :=
  if n < 10 then a * 10 + n else pushNum a (n / 10) * 10 + n % 10
termination_by n
decreasing_by exact Nat.div_lt_self (by omega) (by omega)


/-- Schema constant from schema.py: the closed registry of entity types. -/
def VALID_TYPES : List String :=
  ["feature", "pattern", "context", "capability", "learning", "task", "release"]

/-- Schema constant from schema.py: the union of all per-type status sets,
used in the CHECK constraint of the entities table. -/
def ALL_VALID_STATUSES : List String :=
  ["planned", "in_progress", "complete", "blocked", "deprecated",
   "proposed", "adopted", "active", "paused", "completed", "abandoned",
   "documented", "mitigated", "propagated", "open", "draft", "published"]

/-- List-level string comparison mirroring Python startswith and the SQL
pattern id LIKE type plus a dash plus a percent wildcard. -/
def strStartsWith (s p : String) : Bool :=
  p.toList.isPrefixOf s.toList

/-- CHECK constraints of the entities table in schema.py: type and status lie
in the closed sets and the id starts with the type followed by a dash. -/
def entityRowCheck (id0 ty st : String) : Bool :=
  VALID_TYPES.contains ty && ALL_VALID_STATUSES.contains st &&
    strStartsWith id0 (ty ++ "-")

/-- Failure taxonomy of the storage layer.  The Python code raises
ValidationError with distinct messages for the first four cases (models.py,
repository.py); uncaught sqlite3.IntegrityError is kept separate. -/
inductive RepoError where
  | alreadyExists (id0 : String)
  | schemaViolation (id0 : String)
  | notFound (id0 : String)
  | versionConflict (expected current : Int)
  | invalidEntity (msg : String)
  | integrityError (msg : String)
deriving Repr, DecidableEq

/-- The Entity dataclass of models.py.  Validation performed by __post_init__
is the predicate Entity.postInitOk below; repository theorems take it as a
hypothesis where the Python dataclass guarantees it at construction. -/
structure Entity where
  id : String
  type : String
  status : String
  data : PyDict
  version : Int
  created_at : Time
  updated_at : Time
deriving Repr, Inhabited

/-- Dictionary shape produced by Entity.to_dict (all seven keys present);
data_snapshot columns and sync change payloads carry exactly this shape. -/
structure EntityDict where
  id : String
  type : String
  status : String
  data : PyDict
  version : Int
  created_at : Time
  updated_at : Time
deriving Repr, Inhabited

/-- Optional field overrides accepted by Entity.copy via keyword arguments. -/
structure EntityChanges where
  id : Option String := none
  type : Option String := none
  status : Option String := none
  data : Option PyDict := none
  version : Option Int := none
  created_at : Option Time := none
  updated_at : Option Time := none

/-- Entity.copy from models.py: each field falls back to the original except
updated_at, whose fallback is datetime.utcnow() at the moment of the call
(the now argument), not the original updated_at. -/
def Entity.copy (e : Entity) (changes : EntityChanges) (now : Time) : Entity :=
  { id := changes.id.getD e.id
    type := changes.type.getD e.type
    status := changes.status.getD e.status
    data := changes.data.getD e.data
    version := changes.version.getD e.version
    created_at := changes.created_at.getD e.created_at
    updated_at := changes.updated_at.getD now }

/-- Entity.to_dict from models.py. -/
def Entity.toDict (e : Entity) : EntityDict :=
  { id := e.id, type := e.type, status := e.status, data := e.data,
    version := e.version, created_at := e.created_at, updated_at := e.updated_at }

/-- Validation performed by Entity.__post_init__. -/
def Entity.postInitOk (e : Entity) : Bool :=
  ¬ (e.id == "") && ¬ (e.type == "") && ¬ (e.status == "") &&
    strStartsWith e.id (e.type ++ "-")

/-- Entity.from_dict from models.py; constructing the dataclass re-runs
__post_init__, so an invalid payload raises ValidationError. -/
def Entity.fromDict (d : EntityDict) : Except RepoError Entity :=
  let e : Entity :=
    { id := d.id, type := d.type, status := d.status, data := d.data,
      version := d.version, created_at := d.created_at, updated_at := d.updated_at }
  if e.postInitOk then .ok e else .error (.invalidEntity e.id)

/-- Python datetime.isoformat modelled on Nat instants: injective rendering. -/
def isoformat (t : Time) : String := natToStr t

/-- Entity.to_dict seen as a plain Python dictionary, the value that
detect_conflict compares against the incoming remote payload. -/
def Entity.toPyDict (e : Entity) : PyDict :=
  [("id", .str e.id), ("type", .str e.type), ("status", .str e.status),
   ("data", .obj e.data), ("version", .num e.version),
   ("created_at", .str (isoformat e.created_at)),
   ("updated_at", .str (isoformat e.updated_at))]

/-- Row of the entities table. -/
structure EntityRow where
  id : String
  type : String
  status : String
  data : PyDict
  version : Int
  created_at : Time
  updated_at : Time
deriving Repr

/-- Row of the entity_versions change-log table; its TEXT primary key is the
string entity_id, colon, version, which get_changes_since later re-parses. -/
structure VersionRow where
  id : String
  entity_id : String
  version : Int
  change_type : String
  changed_at : Time
  data_snapshot : Option EntityDict
deriving Repr

/-- State of one SQLite store: the entities table and the change log, each in
insertion order. -/
structure RepoState where
  entities : List EntityRow
  entity_versions : List VersionRow
deriving Repr

/-- The empty database, as _init_db leaves it. -/
def RepoState.empty : RepoState := { entities := [], entity_versions := [] }

namespace EntityRepository

/-- Conversion _row_to_entity from repository.py. -/
def rowToEntity (r : EntityRow) : Entity :=
  { id := r.id, type := r.type, status := r.status, data := r.data,
    version := r.version, created_at := r.created_at, updated_at := r.updated_at }

/-- Snapshot dictionary built by delete before removing the row; it keeps the
pre-delete version. -/
def rowSnapshotDict (r : EntityRow) : EntityDict :=
  { id := r.id, type := r.type, status := r.status, data := r.data,
    version := r.version, created_at := r.created_at, updated_at := r.updated_at }

/-- EntityRepository.create: insert the row with version 1 and one
VersionRecord of kind create in the same transaction; an id collision (on the
row or on the change-log key) is reported as already-exists, a CHECK failure
as a schema violation, and the transaction rolls back.  The returned entity is
entity.copy(version=1), built at time now. -/
def create (st : RepoState) (entity : Entity) (now : Time) :
    Except RepoError (RepoState × Entity) :=
  if st.entities.any (fun r => r.id == entity.id) then
    .error (.alreadyExists entity.id)
  else if ¬ entityRowCheck entity.id entity.type entity.status then
    .error (.schemaViolation entity.id)
  else if st.entity_versions.any (fun vr => vr.id == entity.id ++ ":" ++ intToStr 1) then
    .error (.alreadyExists entity.id)
  else
    .ok ({ entities := st.entities ++
             [{ id := entity.id, type := entity.type, status := entity.status,
                data := entity.data, version := 1,
                created_at := entity.created_at, updated_at := entity.updated_at }],
           entity_versions := st.entity_versions ++
             [{ id := entity.id ++ ":" ++ intToStr 1, entity_id := entity.id,
                version := 1, change_type := "create", changed_at := now,
                data_snapshot := some entity.toDict }] },
         entity.copy { version := some 1 } now)

/-- EntityRepository.read: SELECT by primary key. -/
def read (st : RepoState) (entity_id : String) : Option Entity :=
  (st.entities.find? (fun r => r.id == entity_id)).map rowToEntity

/-- EntityRepository.update: conditional write WHERE id AND version.  When no
row matches, a re-read distinguishes not-found from a version conflict that
carries the current stored version; when a row matches, the row is rewritten
with version+1 and updated_at=now and one VersionRecord of kind update is
appended in the same transaction.  A CHECK or UNIQUE failure at this point is
an uncaught sqlite3.IntegrityError. -/
def update (st : RepoState) (entity : Entity) (now : Time) :
    Except RepoError (RepoState × Entity) :=
  let new_version := entity.version + 1
  match st.entities.find? (fun r => r.id == entity.id && r.version == entity.version) with
  | none =>
      match read st entity.id with
      | none => .error (.notFound entity.id)
      | some existing => .error (.versionConflict entity.version existing.version)
  | some r =>
      if ¬ entityRowCheck r.id r.type entity.status then
        .error (.integrityError "CHECK constraint failed: entities")
      else if st.entity_versions.any
          (fun vr => vr.id == entity.id ++ ":" ++ intToStr new_version) then
        .error (.integrityError "UNIQUE constraint failed: entity_versions.id")
      else
        let updated_entity :=
          entity.copy { version := some new_version, updated_at := some now } now
        .ok ({ entities := st.entities.map (fun r2 =>
                 if r2.id == entity.id && r2.version == entity.version then
                   { r2 with status := entity.status, data := entity.data,
                             version := new_version, updated_at := now }
                 else r2),
               entity_versions := st.entity_versions ++
                 [{ id := entity.id ++ ":" ++ intToStr new_version,
                    entity_id := entity.id, version := new_version,
                    change_type := "update", changed_at := now,
                    data_snapshot := some updated_entity.toDict }] },
             updated_entity)

/-- EntityRepository.delete: snapshot the row, append a VersionRecord of kind
delete carrying the snapshot and version current+1, then remove the row, all
in one transaction; returns false and appends nothing when the id is absent. -/
def delete (st : RepoState) (entity_id : String) (now : Time) :
    Except RepoError (Bool × RepoState) :=
  match st.entities.find? (fun r => r.id == entity_id) with
  | none => .ok (false, st)
  | some row =>
      if st.entity_versions.any
          (fun vr => vr.id == entity_id ++ ":" ++ intToStr (row.version + 1)) then
        .error (.integrityError "UNIQUE constraint failed: entity_versions.id")
      else
        .ok (true,
          { entities := st.entities.filter (fun r => ¬ r.id == entity_id),
            entity_versions := st.entity_versions ++
              [{ id := entity_id ++ ":" ++ intToStr (row.version + 1),
                 entity_id := entity_id, version := row.version + 1,
                 change_type := "delete", changed_at := now,
                 data_snapshot := some (rowSnapshotDict row) }] })

/-- Ordering relation of the ORDER BY changed_at clause. -/
def changedAtLe (a b : VersionRow) : Prop := a.changed_at ≤ b.changed_at

instance : DecidableRel changedAtLe := fun a b => Nat.decLe a.changed_at b.changed_at

instance : IsTotal VersionRow changedAtLe := ⟨fun a b => Nat.le_total a.changed_at b.changed_at⟩

instance : IsTrans VersionRow changedAtLe := ⟨fun _ _ _ => Nat.le_trans⟩

/-- Decoding loop of get_changes_since: rows without a snapshot are skipped,
Entity.from_dict failures propagate as exceptions. -/
def decodeChanges : List VersionRow → Except RepoError (List (Entity × String))
  | [] => .ok []
  | r :: rest =>
      match r.data_snapshot with
      | none => decodeChanges rest
      | some d =>
          match Entity.fromDict d with
          | .error e => .error e
          | .ok ent =>
              match decodeChanges rest with
              | .error e => .error e
              | .ok tail => .ok ((ent, r.change_type) :: tail)

/-- EntityRepository.get_changes_since: select the change-log rows whose
counter, parsed back out of the TEXT primary key by
CAST(SUBSTR(id, INSTR(id, chr(58)) + 1) AS INTEGER), exceeds since_version,
ordered by changed_at, then decode each snapshot. -/
def get_changes_since (st : RepoState) (since_version : Int) :
    Except RepoError (List (Entity × String)) :=
  decodeChanges
    (List.insertionSort changedAtLe
      (st.entity_versions.filter (fun r => decide (since_version < parsedCounter r.id))))

/-- Total variant of the snapshot decoding, agreeing with decodeChanges on
well-formed change logs; used to state theorems. -/
def snapEntity (r : VersionRow) : Entity :=
  match r.data_snapshot with
  | some d =>
      match Entity.fromDict d with
      | .ok e => e
      | .error _ => default
  | none => default

end EntityRepository

/-- Modelled from the spec: the spec describes VersionRecords as keyed by a
store-wide monotonic counter, so the counter of a record is its 1-based
position in the append-only change log, and changes_since(v) returns every
record with counter greater than v, ordered by change time.  This definition
follows the spec wording and is compared against get_changes_since above. -/
def changesSinceGlobalCounter (st : RepoState) (v : Int) : List VersionRow :=
  List.insertionSort EntityRepository.changedAtLe
    ((st.entity_versions.enum.filter (fun p => decide (v < (p.1 + 1 : Int)))).map (fun p => p.2))

/-- Well-formedness of the change log as the repository operations maintain
it: the counter parsed back from the TEXT key equals the version column, and
every snapshot decodes to the entity that snapEntity extracts. -/
def VersionLogWF (st : RepoState) : Prop :=
  ∀ r ∈ st.entity_versions, parsedCounter r.id = r.version ∧
    ∃ d, r.data_snapshot = some d ∧
      Entity.fromDict d = .ok (EntityRepository.snapEntity r)

/-- ConflictResolution enum from conflict.py. -/
inductive ConflictResolution where
  | local_wins
  | remote_wins
  | merged
  | deferred
  | skipped
deriving Repr, DecidableEq

/-- Conflict dataclass from conflict.py: payloads are plain Python
dictionaries (detect_conflict fills them with Entity.to_dict output, but the
dataclass accepts any dictionary). -/
structure Conflict where
  entity_id : String
  entity_type : String
  local_version : Int
  remote_version : Int
  local_data : PyDict
  remote_data : PyDict
  local_timestamp : Time
  remote_timestamp : Time
  local_site_id : String
  remote_site_id : String
deriving Repr

/-- ConflictResult dataclass from conflict.py. -/
structure ConflictResult where
  conflict : Conflict
  resolution : ConflictResolution
  resolved_data : Option PyDict := none
  message : Option String := none
deriving Repr

/-- MergeFieldsResolver configuration from conflict.py. -/
structure MergeFieldsResolver where
  default_priority : String := "remote"
  field_priorities : List (String × String) := []
deriving Repr

namespace MergeFieldsResolver

/-- Key set union iterated by resolve: every local key, then every remote key
not already seen (Python iterates a set; dictionary equality makes the order
immaterial). -/
def allKeys (ld rd : PyDict) : List String :=
  (ld.map (fun p => p.1)) ++
    ((rd.map (fun p => p.1)).filter (fun k => ¬ (ld.map (fun p => p.1)).contains k))

/-- Per-key merge decision of MergeFieldsResolver.resolve: equal values are
kept, a None value (key absent or explicitly None) yields the other side
unconditionally, and only two non-None differing values consult the per-field
priority or the default priority. -/
def mergedValue (r : MergeFieldsResolver) (ld rd : PyDict) (k : String) : JVal :=
  let local_val := JVal.pyGet ld k
  let remote_val := JVal.pyGet rd k
  if JVal.pyEq local_val remote_val then local_val
  else if local_val.isNull then remote_val
  else if remote_val.isNull then local_val
  else if ((r.field_priorities.find? (fun p => p.1 == k)).map (fun p => p.2)).getD
      r.default_priority == "local" then local_val
  else remote_val

/-- Per-key log line of MergeFieldsResolver.resolve. -/
def mergedLog (r : MergeFieldsResolver) (ld rd : PyDict) (k : String) : Option String :=
  let local_val := JVal.pyGet ld k
  let remote_val := JVal.pyGet rd k
  if JVal.pyEq local_val remote_val then none
  else if local_val.isNull then some (k ++ ": added from remote")
  else if remote_val.isNull then some (k ++ ": kept from local")
  else if ((r.field_priorities.find? (fun p => p.1 == k)).map (fun p => p.2)).getD
      r.default_priority == "local" then some (k ++ ": local wins")
  else some (k ++ ": remote wins")

/-- MergeFieldsResolver.resolve from conflict.py: iterate the union of both
key sets, building the merged dictionary and the decision log, and return a
MERGED result carrying the merged data. -/
def resolve (r : MergeFieldsResolver) (c : Conflict) : ConflictResult :=
  let keys := allKeys c.local_data c.remote_data
  let merged : PyDict := keys.map (fun k => (k, r.mergedValue c.local_data c.remote_data k))
  let log := keys.filterMap (fun k => r.mergedLog c.local_data c.remote_data k)
  { conflict := c, resolution := .merged, resolved_data := some merged,
    message := some (if log.isEmpty then "No conflicts" else String.intercalate "; " log) }

end MergeFieldsResolver

/-- The version an incoming payload claims: remote_data.get(key version, 0).
A non-integer value under that key would make the Python comparison raise
TypeError; such payloads are outside this model. -/
def remoteVersionOf (remote_data : PyDict) : Int :=
  match JVal.lookupKey "version" remote_data with
  | some (.num n) => n
  | some _ => 0
  | none => 0

/-- detect_conflict from conflict.py: no conflict when the claimed remote
version is not above the local one, no conflict when the full to_dict payload
equals the remote payload under Python equality, otherwise a Conflict value
carrying both sides. -/
def detect_conflict (entity_id : String) (local_entity : Entity)
    (remote_data : PyDict) (local_site_id remote_site_id : String)
    (remote_timestamp : Time) : Option Conflict :=
  let local_data := local_entity.toPyDict
  let remote_version := remoteVersionOf remote_data
  if remote_version ≤ local_entity.version then none
  else if JVal.pyEq (.obj local_data) (.obj remote_data) then none
  else some
    { entity_id := entity_id
      entity_type := local_entity.type
      local_version := local_entity.version
      remote_version := remote_version
      local_data := local_data
      remote_data := remote_data
      local_timestamp := local_entity.updated_at
      remote_timestamp := remote_timestamp
      local_site_id := local_site_id
      remote_site_id := remote_site_id }

/-- ChangeType enum of the chora_sync package. -/
inductive SyncChangeType where
  | insert
  | update
  | delete
deriving Repr, DecidableEq

/-- Modelled from the spec: a change carried by the ChangeTracker ledger
(section 6 contract: entity_id, kind, site_id, value, version).  The identity
of a change for idempotent re-application is its originating site together
with its sequence number at that site; value carries the serialized entity
dictionary, none when absent. -/
structure Change where
  site_id : String
  origin_seq : Nat
  entity_id : String
  change_type : SyncChangeType
  table_name : String
  value : Option EntityDict
deriving Repr

/-- Modelled from the spec: the durable, site-scoped change ledger with
per-remote-site watermarks (ChangeTracker of the external chora_sync package,
which is not part of this repository).  current version is the ledger length,
get_changes_since v returns the ledger entries after position v, and the
watermark table maps a remote site id to the last acknowledged version. -/
structure TrackerState where
  site_id : String
  ledger : List Change
  site_versions : List (String × Nat)
deriving Repr

namespace TrackerState

/-- Modelled from the spec: get_current_version() of the ChangeTracker. -/
def current_version (t : TrackerState) : Nat := t.ledger.length

/-- Modelled from the spec: get_changes_since(version) of the ChangeTracker,
the ordered ledger entries at positions strictly above version. -/
def get_changes_since (t : TrackerState) (v : Nat) : List Change :=
  t.ledger.drop v

/-- Modelled from the spec: get_site_version(remote_site_id), zero when the
site was never acknowledged. -/
def get_site_version (t : TrackerState) (s : String) : Nat :=
  ((t.site_versions.find? (fun p => p.1 == s)).map (fun p => p.2)).getD 0

/-- Modelled from the spec: update_site_version(remote_site_id, version). -/
def update_site_version (t : TrackerState) (s : String) (v : Nat) : TrackerState :=
  { t with site_versions := (s, v) :: t.site_versions.filter (fun p => ¬ p.1 == s) }

/-- Modelled from the spec: record_change appends a locally-authored entry. -/
def record_change (t : TrackerState) (entity_id : String)
    (ct : SyncChangeType) (table : String) (value : Option EntityDict) : TrackerState :=
  { t with ledger := t.ledger ++
      [{ site_id := t.site_id, origin_seq := t.ledger.length + 1,
         entity_id := entity_id, change_type := ct, table_name := table,
         value := value }] }

/-- Modelled from the spec: apply_remote_change(change) returns true iff the
change was newly recorded; re-applying an already-recorded change is a no-op
(idempotent). -/
def apply_remote_change (t : TrackerState) (c : Change) : Bool × TrackerState :=
  if t.ledger.any (fun d => d.site_id == c.site_id && d.origin_seq == c.origin_seq) then
    (false, t)
  else
    (true, { t with ledger := t.ledger ++ [c] })

end TrackerState

/-- MergeResult dataclass of the chora_sync package, as sync_with fills it. -/
structure MergeResult where
  changes_sent : Nat
  changes_received : Nat
  conflicts_resolved : Nat
  errors : List String
deriving Repr, DecidableEq

/-- One SyncableRepository: its ChangeTracker and its entity store. -/
structure SyncSite where
  tracker : TrackerState
  repo : RepoState
deriving Repr

namespace SyncableRepository

open EntityRepository

/-- SyncableRepository._apply_entity_change: project one remote change onto
the local entity store.  Non-entity tables and empty values are ignored;
INSERT skips an existing id and swallows create errors; UPDATE projects only
a strictly newer remote version, rewriting the version to the local current
one for the optimistic-concurrency precondition, and swallows update errors;
DELETE is forwarded unconditionally.  Entity.from_dict failures and uncaught
delete errors escape to the caller. -/
def applyEntityChange (rs : RepoState) (c : Change) (now : Time) :
    Except RepoError RepoState :=
  if ¬ (c.table_name == "entities") then .ok rs
  else
    match c.value with
    | none => .ok rs
    | some data =>
        match c.change_type with
        | .insert =>
            match Entity.fromDict data with
            | .error e => .error e
            | .ok entity =>
                match read rs entity.id with
                | some _ => .ok rs
                | none =>
                    match create rs entity now with
                    | .ok (rs2, _) => .ok rs2
                    | .error _ => .ok rs
        | .update =>
            match Entity.fromDict data with
            | .error e => .error e
            | .ok entity =>
                match read rs entity.id with
                | none => .ok rs
                | some existing =>
                    if existing.version < entity.version then
                      match update rs (entity.copy { version := some existing.version } now) now with
                      | .ok (rs2, _) => .ok rs2
                      | .error _ => .ok rs
                    else .ok rs
        | .delete =>
            match delete rs data.id now with
            | .ok (_, rs2) => .ok rs2
            | .error e => .error e

/-- One pass of the per-change loop in sync_with: apply each change to the
tracker first; when newly recorded, project it onto the entity store, counting
successes and accumulating per-change failures into the error list without
aborting the batch.  A projection failure happens after the tracker already
recorded the change. -/
def applyChanges (tr : TrackerState) (rs : RepoState) (changes : List Change)
    (now : Time) (msg : String) : TrackerState × RepoState × Nat × List String :=
  match changes with
  | [] => (tr, rs, 0, [])
  | c :: rest =>
      let step := tr.apply_remote_change c
      if step.1 then
        match applyEntityChange rs c now with
        | .ok rs2 =>
            let acc := applyChanges step.2 rs2 rest now msg
            (acc.1, acc.2.1, acc.2.2.1 + 1, acc.2.2.2)
        | .error _ =>
            let acc := applyChanges step.2 rs rest now msg
            (acc.1, acc.2.1, acc.2.2.1,
              (msg ++ c.entity_id) :: acc.2.2.2)
      else
        let acc := applyChanges step.2 rs rest now msg
        (acc.1, acc.2.1, acc.2.2.1, acc.2.2.2)

/-- SyncableRepository.sync_with: look up the watermark for the peer, fetch
the changes after it excluding ones authored at the peer, apply the peer
batch locally and the local batch at the peer (tracker first, then entity
projection, collecting per-change errors), and finally advance both
watermarks to the pre-application current versions.  Returns both updated
sites and the MergeResult. -/
def sync_with (a b : SyncSite) (now : Time) : SyncSite × SyncSite × MergeResult :=
  let remote_site_id := b.tracker.site_id
  let local_site_id := a.tracker.site_id
  let last_remote_version := a.tracker.get_site_version remote_site_id
  let changes_to_send := (a.tracker.get_changes_since last_remote_version).filter
    (fun c => ¬ c.site_id == remote_site_id)
  let local_version := a.tracker.current_version
  let last_local_version_at_remote := b.tracker.get_site_version local_site_id
  let remote_changes := (b.tracker.get_changes_since last_local_version_at_remote).filter
    (fun c => ¬ c.site_id == local_site_id)
  let remote_version := b.tracker.current_version
  let la := applyChanges a.tracker a.repo remote_changes now "Error applying remote change "
  let rb := applyChanges b.tracker b.repo changes_to_send now "Error applying local change "
  let a2 : SyncSite := { tracker := la.1.update_site_version remote_site_id local_version,
                         repo := la.2.1 }
  let b2 : SyncSite := { tracker := rb.1.update_site_version local_site_id remote_version,
                         repo := rb.2.1 }
  (a2, b2,
    { changes_sent := changes_to_send.length,
      changes_received := la.2.2.1,
      conflicts_resolved := 0,
      errors := la.2.2.2 ++ (rb.2.2.2.map (fun e => "Remote: " ++ e)) })

end SyncableRepository

/-- Concrete single-change site used to instantiate the sync theorems. -/
def witnessSiteA : SyncSite :=
  { tracker :=
      { site_id := "site-a",
        ledger :=
          [{ site_id := "site-a", origin_seq := 1,
             entity_id := "feature-a", change_type := .insert,
             table_name := "entities",
             value := some
               { id := "feature-a", type := "feature",
                 status := "planned", data := [], version := 1,
                 created_at := 0, updated_at := 0 } }],
        site_versions := [] },
    repo := RepoState.empty }

/-- Concrete empty peer site used to instantiate the sync theorems. -/
def witnessSiteB : SyncSite :=
  { tracker := { site_id := "site-b", ledger := [], site_versions := [] },
    repo := RepoState.empty }

/-- Site holding one change whose payload fails Entity validation (its id does
not start with its type), so projecting it onto an entity store raises. -/
def poisonSiteB : SyncSite :=
  { tracker :=
      { site_id := "site-b",
        ledger :=
          [{ site_id := "site-b", origin_seq := 1,
             entity_id := "feature-bad", change_type := .insert,
             table_name := "entities",
             value := some
               { id := "x", type := "feature",
                 status := "planned", data := [], version := 1,
                 created_at := 0, updated_at := 0 } }],
        site_versions := [] },
    repo := RepoState.empty }

/-- Empty site paired with poisonSiteB. -/
def poisonSiteA : SyncSite :=
  { tracker := { site_id := "site-a", ledger := [], site_versions := [] },
    repo := RepoState.empty }

theorem JVal.pyEq_num_iff (a b : Int) : pyEq (.num a) (.num b) = true ↔ a = b := by
  simp [pyEq]

theorem JVal.lookupKey_mem {xs : PyDict} {k : String} {v : JVal}
    (hv : lookupKey k xs = some v) : (k, v) ∈ xs := by
  induction xs with
  | nil => simp [lookupKey] at hv
  | cons p rest ih =>
      rw [lookupKey] at hv
      by_cases hk : p.1 = k
      · simp only [if_pos hk] at hv
        have : p = (k, v) := by
          obtain ⟨a, b⟩ := p
          simp at hk hv
          simp [hk, hv]
        simp [this]
      · simp only [if_neg hk] at hv
        exact List.mem_cons_of_mem _ (ih hv)

theorem JVal.pyEq_obj_lookup {xs ys : List (String × JVal)}
    (h : pyEq (.obj xs) (.obj ys) = true) :
    ∀ k v, lookupKey k xs = some v →
      ∃ w, lookupKey k ys = some w ∧ pyEq v w = true := by
  intro k v hv
  rw [pyEq] at h
  have hall := (Bool.and_eq_true _ _).mp h |>.2
  rw [List.all_eq_true] at hall
  have hp := hall ⟨(k, v), lookupKey_mem hv⟩ (List.mem_attach _ _)
  simp only at hp
  cases hw : lookupKey k ys with
  | none => rw [hw] at hp; exact absurd hp (by simp)
  | some w => rw [hw] at hp; exact ⟨w, rfl, hp⟩

theorem pushNum_zero (n : Nat) : pushNum 0 n = n := by
  induction n using Nat.strong_induction_on with
  | _ n ih =>
      rw [pushNum]
      by_cases h : n < 10
      · simp [h]
      · rw [if_neg h, ih (n / 10) (Nat.div_lt_self (by omega) (by omega))]
        omega

theorem natDigitsAux_all_digits {fuel n : Nat} {acc : List Char}
    (hacc : ∀ c ∈ acc, c.isDigit = true) :
    ∀ c ∈ natDigitsAux fuel n acc, c.isDigit = true := by
  induction fuel generalizing n acc with
  | zero => exact hacc
  | succ fuel ih =>
      have hd : (Char.ofNat (48 + n % 10)).isDigit = true := by
        have h10 : n % 10 < 10 := Nat.mod_lt _ (by omega)
        interval_cases h : n % 10 <;> decide
      rw [natDigitsAux]
      by_cases h : n < 10
      · simp only [if_pos h]
        intro c hc
        rcases List.mem_cons.mp hc with h1 | h1
        · rw [h1]; exact hd
        · exact hacc c h1
      · simp only [if_neg h]
        exact ih (fun c hc => by
          rcases List.mem_cons.mp hc with h1 | h1
          · rw [h1]; exact hd
          · exact hacc c h1)

theorem natDigitsAux_ne_nil {fuel n : Nat} {acc : List Char} (h : n < fuel) :
    natDigitsAux fuel n acc ≠ [] := by
  induction fuel generalizing n acc with
  | zero => omega
  | succ fuel ih =>
      rw [natDigitsAux]
      by_cases h10 : n < 10
      · simp [h10]
      · simp only [if_neg h10]
        have hdiv : n / 10 < n := Nat.div_lt_self (by omega) (by omega)
        exact ih (by omega)

theorem natDigitsAux_foldl {fuel : Nat} :
    ∀ {n : Nat} {acc : List Char} {a : Nat}, n < fuel →
    (natDigitsAux fuel n acc).foldl (fun a c => a * 10 + (c.toNat - 48)) a =
      acc.foldl (fun a c => a * 10 + (c.toNat - 48)) (pushNum a n) := by
  induction fuel with
  | zero => intro n acc a h; omega
  | succ fuel ih =>
      intro n acc a h
      have htn : (Char.ofNat (48 + n % 10)).toNat = 48 + n % 10 := by
        have h10 : n % 10 < 10 := Nat.mod_lt _ (by omega)
        interval_cases hm : n % 10 <;> decide
      rw [natDigitsAux]
      by_cases h10 : n < 10
      · simp only [if_pos h10, List.foldl_cons, htn]
        have hpn : pushNum a n = a * 10 + n := by
          conv_lhs => rw [pushNum]
          rw [if_pos h10]
        rw [hpn]
        congr 1
        omega
      · simp only [if_neg h10]
        have hdiv : n / 10 < n := Nat.div_lt_self (by omega) (by omega)
        rw [ih (by omega)]
        simp only [List.foldl_cons, htn]
        have hpn : pushNum a n = pushNum a (n / 10) * 10 + n % 10 := by
          conv_lhs => rw [pushNum]
          rw [if_neg h10]
        rw [hpn]
        congr 1
        omega

theorem digitsPrefixVal_natToStr (n : Nat) :
    digitsPrefixVal (natToStr n).toList = (n : Int) := by
  have hall : ∀ c ∈ natDigitsAux (n + 1) n [], c.isDigit = true :=
    natDigitsAux_all_digits (by intro c hc; simp at hc)
  have htake : (natDigitsAux (n + 1) n []).takeWhile (·.isDigit) =
      natDigitsAux (n + 1) n [] :=
    List.takeWhile_eq_self_iff.mpr hall
  have hlist : (natToStr n).toList = natDigitsAux (n + 1) n [] := rfl
  rw [digitsPrefixVal, hlist, htake,
    @natDigitsAux_foldl (n + 1) n [] 0 (by omega)]
  simp [pushNum_zero]

theorem castTextToInt_natToStr (n : Nat) : castTextToInt (natToStr n) = n := by
  have hall : ∀ c ∈ natDigitsAux (n + 1) n [], c.isDigit = true :=
    natDigitsAux_all_digits (by intro c hc; simp at hc)
  have hlist : (natToStr n).toList = natDigitsAux (n + 1) n [] := rfl
  have hval : digitsPrefixVal (natToStr n).toList = (n : Int) :=
    digitsPrefixVal_natToStr n
  rw [castTextToInt]
  cases hds : (natToStr n).toList with
  | nil =>
      have : natDigitsAux (n + 1) n [] = [] := by rw [← hlist]; exact hds
      exact absurd this (natDigitsAux_ne_nil (by omega))
  | cons c rest =>
      have hcd : c.isDigit = true := by
        apply hall c
        rw [← hlist, hds]
        exact List.mem_cons_self _ _
      have hsp : ¬ (c = ' ') := fun he => by
        rw [he] at hcd; exact absurd hcd (by decide)
      have hminus : ¬ (c = '-') := fun he => by
        rw [he] at hcd; exact absurd hcd (by decide)
      have hplus : ¬ (c = '+') := fun he => by
        rw [he] at hcd; exact absurd hcd (by decide)
      rw [List.dropWhile_cons, if_neg (by simpa using hsp)]
      have hv2 : digitsPrefixVal (c :: rest) = (n : Int) := by
        rw [← hds]; exact hval
      split
      · rename_i heq
        exact absurd (List.head_eq_of_cons_eq heq) hminus
      · rename_i heq
        exact absurd (List.head_eq_of_cons_eq heq) hplus
      · exact hv2

/-- No colon occurs among decimal digits. -/
theorem natToStr_no_colon (n : Nat) : ':' ∉ (natToStr n).toList := by
  intro hc
  have := @natDigitsAux_all_digits (n + 1) n []
    (by intro c h; simp at h) ':' hc
  revert this
  decide

theorem findIdx_colon_append_aux {ys : List Char} :
    ∀ (xs : List Char) (i : Nat), ':' ∉ xs →
    (xs ++ ':' :: ys).findIdx? (· = ':') i = some (xs.length + i) := by
  intro xs
  induction xs with
  | nil => intro i _; simp [List.findIdx?_cons]
  | cons c rest ih =>
      intro i hx
      have hc : ¬ (c = ':') := fun he => hx (by rw [he]; exact List.mem_cons_self _ _)
      rw [List.cons_append, List.findIdx?_cons, if_neg (by simpa using hc)]
      rw [ih (i + 1) (fun hm => hx (List.mem_cons_of_mem _ hm))]
      congr 1
      simp [List.length_cons]
      omega

theorem findIdx_colon_append {xs ys : List Char} (hx : ':' ∉ xs) :
    (xs ++ ':' :: ys).findIdx? (· = ':') = some xs.length := by
  have := @findIdx_colon_append_aux ys xs 0 hx
  simpa using this

theorem parsedCounter_append (eid : String) (v : Int) (hv : 0 ≤ v)
    (hc : ':' ∉ eid.toList) :
    parsedCounter (eid ++ ":" ++ intToStr v) = v := by
  obtain ⟨n, rfl⟩ := Int.eq_ofNat_of_zero_le hv
  have hcast : intToStr (n : Int) = natToStr n := rfl
  rw [hcast]
  have hdata : (eid ++ ":" ++ natToStr n).toList =
      eid.toList ++ ':' :: (natToStr n).toList := by
    show (eid ++ ":" ++ natToStr n).data = eid.data ++ ':' :: (natToStr n).data
    rw [String.data_append, String.data_append, List.append_assoc]
    congr 1
  rw [parsedCounter, sqliteInstr, hdata, findIdx_colon_append hc]
  rw [sqliteSubstrFrom, hdata]
  have hdrop : (eid.toList ++ ':' :: (natToStr n).toList).drop
      (eid.toList.length + 1 + 1 - 1) = (natToStr n).toList := by
    have h1 : eid.toList.length + 1 + 1 - 1 = eid.toList.length + 1 := by omega
    rw [h1, List.drop_append 1]
    simp
  rw [hdrop]
  have hmk : String.mk (natToStr n).toList = natToStr n := rfl
  rw [hmk, castTextToInt_natToStr]

theorem JVal.isNull_iff (v : JVal) : v.isNull = true ↔ v = .null := by
  cases v <;> simp [JVal.isNull]

theorem JVal.pyEq_null_right (v : JVal) : JVal.pyEq v .null = true ↔ v = .null := by
  cases v <;> simp [JVal.pyEq]

theorem JVal.pyEq_null_left (v : JVal) : JVal.pyEq .null v = true ↔ v = .null := by
  cases v <;> simp [JVal.pyEq]

theorem JVal.lookupKey_map_self (keys : List String) (f : String → JVal) (k : String) :
    JVal.lookupKey k (keys.map (fun k2 => (k2, f k2))) =
      if k ∈ keys then some (f k) else none := by
  induction keys with
  | nil => simp [JVal.lookupKey]
  | cons k2 rest ih =>
      rw [List.map_cons, JVal.lookupKey]
      by_cases hk : k2 = k
      · subst hk
        simp
      · rw [if_neg hk, ih]
        have : ¬ (k = k2) := fun he => hk he.symm
        simp [this]

theorem MergeFieldsResolver.resolved_data_lookup (r : MergeFieldsResolver)
    (c : Conflict) (k : String) :
    JVal.lookupKey k (((r.resolve c).resolved_data).getD []) =
      if k ∈ MergeFieldsResolver.allKeys c.local_data c.remote_data then
        some (r.mergedValue c.local_data c.remote_data k)
      else none := by
  rw [MergeFieldsResolver.resolve]
  simp only [Option.getD_some]
  exact JVal.lookupKey_map_self _ _ k

theorem MergeFieldsResolver.mergedValue_null (r : MergeFieldsResolver)
    (ld rd : PyDict) (k : String)
    (h : (JVal.pyGet ld k).isNull = true ∨ (JVal.pyGet rd k).isNull = true) :
    r.mergedValue ld rd k =
      if (JVal.pyGet ld k).isNull then JVal.pyGet rd k else JVal.pyGet ld k := by
  rw [MergeFieldsResolver.mergedValue]
  rcases h with h | h
  · have hl : JVal.pyGet ld k = .null := (JVal.isNull_iff _).mp h
    by_cases he : JVal.pyEq (JVal.pyGet ld k) (JVal.pyGet rd k) = true
    · have hr : JVal.pyGet rd k = .null := by
        rw [hl] at he
        exact (JVal.pyEq_null_left _).mp he
      simp [he, h, hl, hr]
    · simp only [Bool.not_eq_true] at he
      rw [hl] at he
      simp [he, h, hl, JVal.isNull]
  · have hr : JVal.pyGet rd k = .null := (JVal.isNull_iff _).mp h
    by_cases he : JVal.pyEq (JVal.pyGet ld k) (JVal.pyGet rd k) = true
    · have hl : JVal.pyGet ld k = .null := by
        rw [hr] at he
        exact (JVal.pyEq_null_right _).mp he
      simp [he, hl, hr]
    · simp only [Bool.not_eq_true] at he
      rw [hr] at he
      by_cases hln : (JVal.pyGet ld k).isNull = true
      · simp [he, hln, (JVal.isNull_iff _).mp hln, hr, JVal.isNull]
      · simp [he, hln, h, hr, JVal.isNull]

/-- C8 counterexample: with default priority local and no overrides, merging a
local payload holding the key k with value None against a remote payload
holding k with value 1 takes the remote value unconditionally, while the
claimed rule (differing values resolved by the default priority) would keep
the local None.  The claim as stated is therefore false at this input. -/
theorem C8_counterexample :
    (MergeFieldsResolver.resolve
        { default_priority := "local", field_priorities := [] }
        { entity_id := "feature-x", entity_type := "feature",
          local_version := 1, remote_version := 2,
          local_data := [("k", JVal.null)], remote_data := [("k", JVal.num 1)],
          local_timestamp := 0, remote_timestamp := 0,
          local_site_id := "site-a", remote_site_id := "site-b" }).resolved_data =
      some [("k", JVal.num 1)] ∧
    ¬ ((MergeFieldsResolver.resolve
        { default_priority := "local", field_priorities := [] }
        { entity_id := "feature-x", entity_type := "feature",
          local_version := 1, remote_version := 2,
          local_data := [("k", JVal.null)], remote_data := [("k", JVal.num 1)],
          local_timestamp := 0, remote_timestamp := 0,
          local_site_id := "site-a", remote_site_id := "site-b" }).resolved_data =
      some [("k", JVal.null)]) := by
  constructor
  · simp [MergeFieldsResolver.resolve, MergeFieldsResolver.allKeys,
      MergeFieldsResolver.mergedValue, JVal.pyGet, JVal.lookupKey, JVal.pyEq,
      JVal.isNull]
  · intro h
    simp [MergeFieldsResolver.resolve, MergeFieldsResolver.allKeys,
      MergeFieldsResolver.mergedValue, JVal.pyGet, JVal.lookupKey, JVal.pyEq,
      JVal.isNull] at h

/-- C8 (amended): FieldMerge merges key-wise over the union of both payloads
keys; the stated scenario holds, and for every key of the union the merged
value is: equal values as-is; a value that is None on one side (key absent or
explicitly None) yields the other side unconditionally; two non-None differing
values are resolved by the per-field override if present, else the default
priority. -/
theorem C8_field_merge :
    ((MergeFieldsResolver.resolve
        { default_priority := "remote", field_priorities := [("status", "local")] }
        { entity_id := "feature-x", entity_type := "feature",
          local_version := 1, remote_version := 2,
          local_data := [("name", JVal.str "A"), ("status", JVal.str "S1")],
          remote_data := [("name", JVal.str "B"), ("status", JVal.str "S2")],
          local_timestamp := 0, remote_timestamp := 0,
          local_site_id := "site-a", remote_site_id := "site-b" }).resolved_data =
      some [("name", JVal.str "B"), ("status", JVal.str "S1")]) ∧
    (∀ (r : MergeFieldsResolver) (c : Conflict) (k : String),
      k ∈ MergeFieldsResolver.allKeys c.local_data c.remote_data →
      JVal.lookupKey k (((r.resolve c).resolved_data).getD []) =
        some (
          if JVal.pyEq (JVal.pyGet c.local_data k) (JVal.pyGet c.remote_data k) then
            JVal.pyGet c.local_data k
          else if (JVal.pyGet c.local_data k).isNull then JVal.pyGet c.remote_data k
          else if (JVal.pyGet c.remote_data k).isNull then JVal.pyGet c.local_data k
          else if ((r.field_priorities.find? (fun p => p.1 == k)).map (fun p => p.2)).getD
              r.default_priority == "local" then JVal.pyGet c.local_data k
          else JVal.pyGet c.remote_data k)) := by
  constructor
  · simp [MergeFieldsResolver.resolve, MergeFieldsResolver.allKeys,
      MergeFieldsResolver.mergedValue, JVal.pyGet, JVal.lookupKey, JVal.pyEq,
      JVal.isNull]
  · intro r c k hk
    rw [MergeFieldsResolver.resolved_data_lookup, if_pos hk]
    rfl

/-- C8 witness: the general merge rule applied to the scenario payloads at the
key status, where the per-field override selects the local side. -/
theorem C8_field_merge_witness :
    JVal.lookupKey "status"
      (((MergeFieldsResolver.resolve
          { default_priority := "remote", field_priorities := [("status", "local")] }
          { entity_id := "feature-x", entity_type := "feature",
            local_version := 1, remote_version := 2,
            local_data := [("name", JVal.str "A"), ("status", JVal.str "S1")],
            remote_data := [("name", JVal.str "B"), ("status", JVal.str "S2")],
            local_timestamp := 0, remote_timestamp := 0,
            local_site_id := "site-a", remote_site_id := "site-b" }).resolved_data).getD []) =
      some (
        if JVal.pyEq (JVal.str "S1") (JVal.str "S2") then JVal.str "S1"
        else if (JVal.str "S1").isNull then JVal.str "S2"
        else if (JVal.str "S2").isNull then JVal.str "S1"
        else if ((([("status", "local")].find? (fun p => p.1 == "status")).map
            (fun p => p.2)).getD "remote" == "local") then JVal.str "S1"
        else JVal.str "S2") := by
  have h := C8_field_merge.2
    { default_priority := "remote", field_priorities := [("status", "local")] }
    { entity_id := "feature-x", entity_type := "feature",
      local_version := 1, remote_version := 2,
      local_data := [("name", JVal.str "A"), ("status", JVal.str "S1")],
      remote_data := [("name", JVal.str "B"), ("status", JVal.str "S2")],
      local_timestamp := 0, remote_timestamp := 0,
      local_site_id := "site-a", remote_site_id := "site-b" }
    "status" (by decide)
  simpa [JVal.pyGet, JVal.lookupKey] using h

/-- C9: a key whose value is None on one side (absent or explicitly None)
takes the value of the other side unconditionally, and the decision is independent
of both the per-field overrides and the default priority. -/
theorem C9_none_value_merge (r1 r2 : MergeFieldsResolver) (c : Conflict) (k : String)
    (hk : k ∈ MergeFieldsResolver.allKeys c.local_data c.remote_data)
    (hnull : (JVal.pyGet c.local_data k).isNull = true ∨
      (JVal.pyGet c.remote_data k).isNull = true) :
    JVal.lookupKey k (((r1.resolve c).resolved_data).getD []) =
      some (if (JVal.pyGet c.local_data k).isNull then JVal.pyGet c.remote_data k
            else JVal.pyGet c.local_data k) ∧
    JVal.lookupKey k (((r1.resolve c).resolved_data).getD []) =
      JVal.lookupKey k (((r2.resolve c).resolved_data).getD []) := by
  rw [MergeFieldsResolver.resolved_data_lookup, if_pos hk,
    MergeFieldsResolver.resolved_data_lookup, if_pos hk,
    MergeFieldsResolver.mergedValue_null r1 _ _ _ hnull,
    MergeFieldsResolver.mergedValue_null r2 _ _ _ hnull]
  exact ⟨rfl, rfl⟩

/-- C9 witness: a key explicitly None locally takes the remote value under
both a local-priority and a remote-priority resolver. -/
theorem C9_none_value_merge_witness :
    JVal.lookupKey "x"
      (((MergeFieldsResolver.resolve { default_priority := "local", field_priorities := [("x", "local")] }
        { entity_id := "feature-x", entity_type := "feature",
          local_version := 1, remote_version := 2,
          local_data := [("x", JVal.null)], remote_data := [("x", JVal.num 5)],
          local_timestamp := 0, remote_timestamp := 0,
          local_site_id := "site-a", remote_site_id := "site-b" }).resolved_data).getD []) =
      some (if (JVal.pyGet [("x", JVal.null)] "x").isNull then JVal.pyGet [("x", JVal.num 5)] "x"
            else JVal.pyGet [("x", JVal.null)] "x") ∧
    JVal.lookupKey "x"
      (((MergeFieldsResolver.resolve { default_priority := "local", field_priorities := [("x", "local")] }
        { entity_id := "feature-x", entity_type := "feature",
          local_version := 1, remote_version := 2,
          local_data := [("x", JVal.null)], remote_data := [("x", JVal.num 5)],
          local_timestamp := 0, remote_timestamp := 0,
          local_site_id := "site-a", remote_site_id := "site-b" }).resolved_data).getD []) =
    JVal.lookupKey "x"
      (((MergeFieldsResolver.resolve { default_priority := "remote", field_priorities := [] }
        { entity_id := "feature-x", entity_type := "feature",
          local_version := 1, remote_version := 2,
          local_data := [("x", JVal.null)], remote_data := [("x", JVal.num 5)],
          local_timestamp := 0, remote_timestamp := 0,
          local_site_id := "site-a", remote_site_id := "site-b" }).resolved_data).getD []) :=
  C9_none_value_merge
    { default_priority := "local", field_priorities := [("x", "local")] }
    { default_priority := "remote", field_priorities := [] }
    { entity_id := "feature-x", entity_type := "feature",
      local_version := 1, remote_version := 2,
      local_data := [("x", JVal.null)], remote_data := [("x", JVal.num 5)],
      local_timestamp := 0, remote_timestamp := 0,
      local_site_id := "site-a", remote_site_id := "site-b" }
    "x" (by decide) (by left; decide)

/-- C2 counterexample: a local entity at version 1 and a remote payload that is
structurally identical except for claiming version 2 produce a Conflict, while
the claim states that structurally identical data at different version numbers
yields none.  The to_dict payload includes the version field, so the identity
check can never succeed once the remote version is higher. -/
theorem C2_counterexample :
    (detect_conflict "feature-x"
      { id := "feature-x", type := "feature", status := "planned", data := [],
        version := 1, created_at := 0, updated_at := 0 }
      [("id", JVal.str "feature-x"), ("type", JVal.str "feature"),
       ("status", JVal.str "planned"), ("data", JVal.obj []),
       ("version", JVal.num 2), ("created_at", JVal.str (isoformat 0)),
       ("updated_at", JVal.str (isoformat 0))]
      "site-a" "site-b" 0).isSome = true := by
  simp [detect_conflict, remoteVersionOf, Entity.toPyDict, JVal.lookupKey,
    JVal.pyEq, isoformat]

/-- C2 (amended): for a remote payload that claims version R under its version
key, detect_conflict returns a conflict exactly when R is above the local
version; the structural-identity check cannot fire in that case, because the
compared local payload embeds the local version and so differs from the remote
payload at the version key.  In particular structurally identical data at
different version numbers with R above L still yields a conflict, and R at or
below L yields none. -/
theorem C2_detect_conflict_iff (eid : String) (le : Entity) (rd : PyDict)
    (ls rs : String) (rt : Time) (R : Int)
    (hR : JVal.lookupKey "version" rd = some (.num R)) :
    (detect_conflict eid le rd ls rs rt).isSome = true ↔ le.version < R := by
  have hrv : remoteVersionOf rd = R := by rw [remoteVersionOf, hR]
  by_cases hle : R ≤ le.version
  · have : ¬ le.version < R := by omega
    simp [detect_conflict, hrv, hle, this]
  · have hlt : le.version < R := by omega
    have hpe : JVal.pyEq (.obj le.toPyDict) (.obj rd) = false := by
      by_contra hcon
      rw [Bool.not_eq_false] at hcon
      have hlk : JVal.lookupKey "version" le.toPyDict = some (.num le.version) := by
        simp [Entity.toPyDict, JVal.lookupKey]
      obtain ⟨w, hw, hpw⟩ := JVal.pyEq_obj_lookup hcon "version" _ hlk
      rw [hR] at hw
      injection hw with hw2
      rw [← hw2] at hpw
      have : le.version = R := (JVal.pyEq_num_iff _ _).mp hpw
      omega
    simp [detect_conflict, hrv, hle, hlt, hpe]

/-- C2 witness: the amended equivalence evaluated at a remote payload claiming
version 3 against a local entity at version 1. -/
theorem C2_detect_conflict_witness :
    (detect_conflict "feature-x"
      { id := "feature-x", type := "feature", status := "planned", data := [],
        version := 1, created_at := 0, updated_at := 0 }
      [("version", JVal.num 3), ("status", JVal.str "blocked")]
      "site-a" "site-b" 4).isSome = true ↔ (1 : Int) < 3 :=
  C2_detect_conflict_iff "feature-x"
    { id := "feature-x", type := "feature", status := "planned", data := [],
      version := 1, created_at := 0, updated_at := 0 }
    [("version", JVal.num 3), ("status", JVal.str "blocked")]
    "site-a" "site-b" 4 3 (by simp [JVal.lookupKey])

/-- C10: Entity.copy without an explicit updated_at override stamps the copy
with the time of the call rather than preserving the original updated_at; in
consequence the entity returned by create carries updated_at equal to the call
time, while the persisted row (returned by a later read) keeps the original
updated_at, and the two differ whenever the call time differs from it. -/
theorem C10_copy_create_updated_at :
    (∀ (e : Entity) (ch : EntityChanges) (now : Time), ch.updated_at = none →
      (Entity.copy e ch now).updated_at = now) ∧
    (∀ (st : RepoState) (e : Entity) (now : Time) (st2 : RepoState) (e2 : Entity),
      EntityRepository.create st e now = .ok (st2, e2) →
      e2.updated_at = now ∧
      ∃ er, EntityRepository.read st2 e.id = some er ∧
        er.updated_at = e.updated_at ∧
        (¬ now = e.updated_at → ¬ e2.updated_at = er.updated_at)) := by
  constructor
  · intro e ch now h
    rw [Entity.copy]
    simp [h]
  · intro st e now st2 e2 h
    rw [EntityRepository.create] at h
    split_ifs at h with h1 h2 h3
    have hpair : (st2, e2) =
        ({ entities := st.entities ++
             [{ id := e.id, type := e.type, status := e.status,
                data := e.data, version := 1,
                created_at := e.created_at, updated_at := e.updated_at }],
           entity_versions := st.entity_versions ++
             [{ id := e.id ++ ":" ++ intToStr 1, entity_id := e.id,
                version := 1, change_type := "create", changed_at := now,
                data_snapshot := some e.toDict }] },
         e.copy { version := some 1 } now) := by
      injection h with h4
      exact h4.symm
    obtain ⟨hst2, he2⟩ := Prod.mk.injEq .. |>.mp hpair.symm
    constructor
    · rw [← he2]
      rfl
    · refine ⟨EntityRepository.rowToEntity
        { id := e.id, type := e.type, status := e.status,
          data := e.data, version := 1,
          created_at := e.created_at, updated_at := e.updated_at }, ?_, rfl, ?_⟩
      · rw [← hst2]
        rw [EntityRepository.read]
        have hnone : st.entities.find? (fun r => r.id == e.id) = none := by
          rw [List.find?_eq_none]
          intro r hr hcon
          exact h1 (List.any_eq_true.mpr ⟨r, hr, hcon⟩)
        simp only [List.find?_append, hnone, Option.none_or]
        simp [List.find?]
      · intro hne hcon
        rw [← he2] at hcon
        exact hne hcon

/-- C10 witness: creating an entity whose stored updated_at is 5 at call time
7 returns an entity stamped 7 while the row read back keeps 5. -/
theorem C10_copy_create_witness :
    (Entity.copy
      { id := "feature-a", type := "feature", status := "planned",
        data := [], version := 1, created_at := 0, updated_at := 5 } {} 7).updated_at = 7 ∧
    ∃ er, EntityRepository.read
      { entities :=
          [{ id := "feature-a", type := "feature", status := "planned",
             data := [], version := 1, created_at := 0, updated_at := 5 }],
        entity_versions :=
          [{ id := "feature-a" ++ ":" ++ intToStr 1,
             entity_id := "feature-a", version := 1, change_type := "create",
             changed_at := 7,
             data_snapshot := some (Entity.toDict
               { id := "feature-a", type := "feature",
                 status := "planned", data := [], version := 1, created_at := 0,
                 updated_at := 5 }) }] } "feature-a" = some er ∧
      er.updated_at = 5 ∧
      (¬ (7 : Time) = 5 → ¬ (7 : Time) = er.updated_at) := by
  constructor
  · exact C10_copy_create_updated_at.1 _ {} 7 rfl
  · have h := (C10_copy_create_updated_at.2
      { entities := [], entity_versions := [] }
      { id := "feature-a", type := "feature", status := "planned",
        data := [], version := 1, created_at := 0, updated_at := 5 }
      7
      { entities :=
          [{ id := "feature-a", type := "feature", status := "planned",
             data := [], version := 1, created_at := 0, updated_at := 5 }],
        entity_versions :=
          [{ id := "feature-a" ++ ":" ++ intToStr 1,
             entity_id := "feature-a", version := 1, change_type := "create",
             changed_at := 7,
             data_snapshot := some (Entity.toDict
               { id := "feature-a", type := "feature",
                 status := "planned", data := [], version := 1, created_at := 0,
                 updated_at := 5 }) }] }
      { id := "feature-a", type := "feature", status := "planned",
        data := [], version := 1, created_at := 0, updated_at := 7 }
      (by rfl)).2
    exact h

theorem EntityRow_unique {l : List EntityRow}
    (hnodup : (l.map (fun r => r.id)).Nodup)
    {r1 r2 : EntityRow} (h1 : r1 ∈ l) (h2 : r2 ∈ l) (hid : r1.id = r2.id) :
    r1 = r2 :=
  List.inj_on_of_nodup_map hnodup h1 h2 hid

theorem update_notFound (st : RepoState) (e : Entity) (now : Time)
    (h : EntityRepository.read st e.id = none) :
    EntityRepository.update st e now = .error (.notFound e.id) := by
  have hidnone : st.entities.find? (fun r => r.id == e.id) = none := by
    rw [EntityRepository.read] at h
    cases hf : st.entities.find? (fun r => r.id == e.id) with
    | none => rfl
    | some r => rw [hf] at h; exact absurd h (by simp)
  have hboth : st.entities.find?
      (fun r => r.id == e.id && r.version == e.version) = none := by
    rw [List.find?_eq_none]
    intro x hx hcon
    have hid : (x.id == e.id) = true := by
      rcases Bool.and_eq_true _ _ |>.mp hcon with ⟨h1, _⟩
      exact h1
    exact (List.find?_eq_none.mp hidnone x hx) hid
  rw [EntityRepository.update, hboth, EntityRepository.read, hidnone]
  rfl

theorem update_stale (st : RepoState) (e : Entity) (now : Time) (ex : Entity)
    (hnodup : (st.entities.map (fun r => r.id)).Nodup)
    (hex : EntityRepository.read st e.id = some ex)
    (hne : ¬ ex.version = e.version) :
    EntityRepository.update st e now = .error (.versionConflict e.version ex.version) := by
  rw [EntityRepository.read] at hex
  cases hf : st.entities.find? (fun r => r.id == e.id) with
  | none => rw [hf] at hex; exact absurd hex (by simp)
  | some r0 =>
      rw [hf] at hex
      have hex2 : EntityRepository.rowToEntity r0 = ex := by
        injection hex
      have hr0mem : r0 ∈ st.entities := List.mem_of_find?_eq_some hf
      have hr0id : r0.id = e.id := by
        have := List.find?_some hf
        simpa using this
      have hboth : st.entities.find?
          (fun r => r.id == e.id && r.version == e.version) = none := by
        rw [List.find?_eq_none]
        intro x hx hcon
        rcases Bool.and_eq_true _ _ |>.mp hcon with ⟨h1, h2⟩
        have hxid : x.id = e.id := by simpa using h1
        have hxver : x.version = e.version := by simpa using h2
        have : x = r0 := EntityRow_unique hnodup hx hr0mem (by rw [hxid, hr0id])
        rw [this] at hxver
        apply hne
        rw [← hex2]
        exact hxver
      rw [EntityRepository.update, hboth, EntityRepository.read, hf]
      rw [← hex2]
      rfl

theorem find?_map_id_preserving (f : EntityRow → EntityRow)
    (hf : ∀ x, (f x).id = x.id) (l : List EntityRow) (t : String) :
    (l.map f).find? (fun r => r.id == t) =
      (l.find? (fun r => r.id == t)).map f := by
  induction l with
  | nil => rfl
  | cons x rest ih =>
      rw [List.map_cons, List.find?_cons, List.find?_cons]
      by_cases hx : (x.id == t) = true
      · rw [hf x] at *
        simp [hx]
      · have hfx : ((f x).id == t) = false := by
          rw [hf x]
          exact Bool.eq_false_iff.mpr hx
        have hx2 : (x.id == t) = false := Bool.eq_false_iff.mpr hx
        simp [hfx, hx2, ih]

/-- C5: updating with the current stored version of the entity succeeds, stores
version supplied+1 with updated_at set to the call time, appends exactly one
update VersionRecord atomically with the row rewrite, and returns the bumped
entity; updating with any other version while the row exists fails with a
version conflict (the transaction aborts before any write, leaving the stored
row unchanged). -/
theorem C5_update_optimistic (st : RepoState) (e : Entity) (now : Time)
    (hnodup : (st.entities.map (fun r => r.id)).Nodup) :
    (∀ r, r ∈ st.entities → r.id = e.id → r.version = e.version →
      ALL_VALID_STATUSES.contains e.status = true →
      VALID_TYPES.contains r.type = true →
      strStartsWith r.id (r.type ++ "-") = true →
      (∀ vr ∈ st.entity_versions, ¬ vr.id = e.id ++ ":" ++ intToStr (e.version + 1)) →
      ∃ st2 e2, EntityRepository.update st e now = .ok (st2, e2) ∧
        e2.version = e.version + 1 ∧ e2.updated_at = now ∧
        (∃ er, EntityRepository.read st2 e.id = some er ∧
          er.version = e.version + 1 ∧ er.updated_at = now ∧
          er.status = e.status ∧ er.data = e.data) ∧
        st2.entity_versions = st.entity_versions ++
          [{ id := e.id ++ ":" ++ intToStr (e.version + 1), entity_id := e.id,
             version := e.version + 1, change_type := "update", changed_at := now,
             data_snapshot := some (Entity.toDict
               (e.copy { version := some (e.version + 1), updated_at := some now } now)) }]) ∧
    (∀ ex, EntityRepository.read st e.id = some ex → ¬ ex.version = e.version →
      EntityRepository.update st e now = .error (.versionConflict e.version ex.version)) := by
  constructor
  · intro r hr hid hver hstatus htype hlike hvkey
    have hpred : (fun r2 => r2.id == e.id && r2.version == e.version) r = true := by
      simp [hid, hver]
    have hsome : (st.entities.find?
        (fun r2 => r2.id == e.id && r2.version == e.version)).isSome = true :=
      List.find?_isSome.mpr ⟨r, hr, hpred⟩
    cases hf : st.entities.find? (fun r2 => r2.id == e.id && r2.version == e.version) with
    | none => rw [hf] at hsome; exact absurd hsome (by simp)
    | some r1 =>
        have hr1mem : r1 ∈ st.entities := List.mem_of_find?_eq_some hf
        have hp1 := List.find?_some hf
        rcases Bool.and_eq_true _ _ |>.mp hp1 with ⟨hp1a, hp1b⟩
        have hr1id : r1.id = e.id := by simpa using hp1a
        have hr1eq : r1 = r := EntityRow_unique hnodup hr1mem hr (by rw [hr1id, hid])
        have hcheck : entityRowCheck r1.id r1.type e.status = true := by
          rw [hr1eq, entityRowCheck]
          simp only [Bool.and_eq_true]
          exact ⟨⟨by simpa using htype, by simpa using hstatus⟩, hlike⟩
        have hany : (st.entity_versions.any
            (fun vr => vr.id == e.id ++ ":" ++ intToStr (e.version + 1))) = false := by
          rw [List.any_eq_false]
          intro vr hvr hcon
          exact hvkey vr hvr (by simpa using hcon)
        have hnot1 : ¬ ¬ (entityRowCheck r1.id r1.type e.status = true) :=
          not_not_intro hcheck
        have hnot2 : ¬ ((st.entity_versions.any
            (fun vr => vr.id == e.id ++ ":" ++ intToStr (e.version + 1))) = true) := by
          rw [hany]
          simp
        simp only [EntityRepository.update, hf, if_neg hnot1, if_neg hnot2]
        refine ⟨_, _, rfl, rfl, rfl, ?_, rfl⟩
        have hfid : ∀ x : EntityRow,
            ((fun r2 => if r2.id == e.id && r2.version == e.version then
                { r2 with status := e.status, data := e.data,
                          version := e.version + 1, updated_at := now }
              else r2) x).id = x.id := by
          intro x
          by_cases hx : (x.id == e.id && x.version == e.version) = true
          · simp [hx]
          · simp [Bool.eq_false_iff.mpr hx]
        rw [EntityRepository.read]
        rw [find?_map_id_preserving _ hfid]
        have hfirst : st.entities.find? (fun r2 => r2.id == e.id) = some r := by
          cases hg : st.entities.find? (fun r2 => r2.id == e.id) with
          | none =>
              exact absurd (by simp [hid] : (r.id == e.id) = true)
                (List.find?_eq_none.mp hg r hr)
          | some r2 =>
              have hr2mem : r2 ∈ st.entities := List.mem_of_find?_eq_some hg
              have hr2id : r2.id = e.id := by simpa using List.find?_some hg
              rw [EntityRow_unique hnodup hr2mem hr (by rw [hr2id, hid])]
        rw [hfirst]
        refine ⟨_, rfl, ?_⟩
        have hcond : (r.id == e.id && r.version == e.version) = true := by
          simp [hid, hver]
        simp only [Option.map_some, hcond, if_pos]
        exact ⟨rfl, rfl, rfl, rfl⟩
  · intro ex hex hne
    exact update_stale st e now ex hnodup hex hne

/-- C5 witness: a one-row store updated at its current version 1 moves to
stored version 2 with the new status and timestamp, appending exactly one
update record. -/
theorem C5_update_optimistic_witness :
    ∃ st2 e2, EntityRepository.update
      { entities := [{ id := "feature-a", type := "feature", status := "planned",
                       data := [], version := 1, created_at := 0, updated_at := 0 }],
        entity_versions := [] }
      { id := "feature-a", type := "feature", status := "in_progress",
        data := [], version := 1, created_at := 0, updated_at := 0 } 3 = .ok (st2, e2) ∧
      e2.version = 1 + 1 ∧ e2.updated_at = 3 ∧
      (∃ er, EntityRepository.read st2 "feature-a" = some er ∧
        er.version = 1 + 1 ∧ er.updated_at = 3 ∧
        er.status = "in_progress" ∧ er.data = []) ∧
      st2.entity_versions = [] ++
        [{ id := "feature-a" ++ ":" ++ intToStr (1 + 1), entity_id := "feature-a",
           version := 1 + 1, change_type := "update", changed_at := 3,
           data_snapshot := some (Entity.toDict
             (Entity.copy
               { id := "feature-a", type := "feature", status := "in_progress",
                 data := [], version := 1, created_at := 0, updated_at := 0 }
               { version := some (1 + 1), updated_at := some 3 } 3)) }] :=
  (C5_update_optimistic
    { entities := [{ id := "feature-a", type := "feature", status := "planned",
                     data := [], version := 1, created_at := 0, updated_at := 0 }],
      entity_versions := [] }
    { id := "feature-a", type := "feature", status := "in_progress",
      data := [], version := 1, created_at := 0, updated_at := 0 } 3
    (by decide)).1
    { id := "feature-a", type := "feature", status := "planned",
      data := [], version := 1, created_at := 0, updated_at := 0 }
    (List.mem_singleton.mpr rfl) rfl rfl (by decide) (by decide) (by decide)
    (by intro vr hvr; exact (List.not_mem_nil vr hvr).elim)

/-- C6: an update that matches no row fails with not-found when the id is
absent and with a version conflict carrying the current stored version when
the id exists at a different version, and the two failure outcomes are
distinct values of the error taxonomy, so callers can tell them apart. -/
theorem C6_zero_rows_distinguishable (st : RepoState) (e : Entity) (now : Time) :
    (EntityRepository.read st e.id = none →
      EntityRepository.update st e now = .error (.notFound e.id)) ∧
    (∀ ex, (st.entities.map (fun r => r.id)).Nodup →
      EntityRepository.read st e.id = some ex → ¬ ex.version = e.version →
      EntityRepository.update st e now = .error (.versionConflict e.version ex.version)) ∧
    (∀ (id1 : String) (v1 v2 : Int),
      RepoError.notFound id1 ≠ RepoError.versionConflict v1 v2) := by
  refine ⟨fun h => update_notFound st e now h,
    fun ex hnodup hex hne => update_stale st e now ex hnodup hex hne,
    fun id1 v1 v2 h => ?_⟩
  cases h

/-- C6 witness: the not-found and version-conflict outcomes observed on a
concrete store holding one entity at version 2. -/
theorem C6_zero_rows_witness :
    EntityRepository.update
      { entities := [], entity_versions := [] }
      { id := "feature-a", type := "feature", status := "planned",
        data := [], version := 1, created_at := 0, updated_at := 0 } 3 =
      .error (.notFound "feature-a") ∧
    EntityRepository.update
      { entities := [{ id := "feature-b", type := "feature", status := "planned",
                       data := [], version := 2, created_at := 0, updated_at := 0 }],
        entity_versions := [] }
      { id := "feature-b", type := "feature", status := "planned",
        data := [], version := 1, created_at := 0, updated_at := 0 } 3 =
      .error (.versionConflict 1 2) := by
  constructor
  · exact (C6_zero_rows_distinguishable
      { entities := [], entity_versions := [] }
      { id := "feature-a", type := "feature", status := "planned",
        data := [], version := 1, created_at := 0, updated_at := 0 } 3).1 rfl
  · exact (C6_zero_rows_distinguishable
      { entities := [{ id := "feature-b", type := "feature", status := "planned",
                       data := [], version := 2, created_at := 0, updated_at := 0 }],
        entity_versions := [] }
      { id := "feature-b", type := "feature", status := "planned",
        data := [], version := 1, created_at := 0, updated_at := 0 } 3).2.1
      { id := "feature-b", type := "feature", status := "planned",
        data := [], version := 2, created_at := 0, updated_at := 0 }
      (by decide) rfl (by norm_num)

theorem decodeChanges_eq_map {rows : List VersionRow}
    (h : ∀ r ∈ rows, ∃ d, r.data_snapshot = some d ∧
      Entity.fromDict d = .ok (EntityRepository.snapEntity r)) :
    EntityRepository.decodeChanges rows =
      .ok (rows.map (fun r => (EntityRepository.snapEntity r, r.change_type))) := by
  induction rows with
  | nil => rfl
  | cons r rest ih =>
      obtain ⟨d, hd, hdec⟩ := h r (List.mem_cons_self _ _)
      have ih2 := ih (fun r2 hr2 => h r2 (List.mem_cons_of_mem _ hr2))
      rw [EntityRepository.decodeChanges, hd]
      simp only [hdec, ih2]
      rfl

theorem changes_since_wf (st : RepoState) (v : Int) (hwf : VersionLogWF st) :
    EntityRepository.get_changes_since st v =
      .ok ((List.insertionSort EntityRepository.changedAtLe
        (st.entity_versions.filter (fun r => decide (v < r.version)))).map
        (fun r => (EntityRepository.snapEntity r, r.change_type))) := by
  rw [EntityRepository.get_changes_since]
  have hfilter : st.entity_versions.filter (fun r => decide (v < parsedCounter r.id)) =
      st.entity_versions.filter (fun r => decide (v < r.version)) := by
    apply List.filter_congr
    intro r hr
    rw [(hwf r hr).1]
  rw [hfilter]
  apply decodeChanges_eq_map
  intro r hr
  have hmem : r ∈ st.entity_versions := by
    have hperm := List.perm_insertionSort EntityRepository.changedAtLe
      (st.entity_versions.filter (fun r2 => decide (v < r2.version)))
    have := hperm.mem_iff.mp hr
    exact List.mem_of_mem_filter this
  exact (hwf r hmem).2

/-- C1 (amended): the selection criterion of changes_since is the per-entity
version number parsed back from the change-log key, not a store-wide counter:
on any store whose change log is well formed, get_changes_since v decodes
exactly the records whose per-entity version exceeds v, ordered by change
time. -/
theorem C1_changes_since_per_entity (st : RepoState) (v : Int)
    (hwf : VersionLogWF st) :
    EntityRepository.get_changes_since st v =
      .ok ((List.insertionSort EntityRepository.changedAtLe
        (st.entity_versions.filter (fun r => decide (v < r.version)))).map
        (fun r => (EntityRepository.snapEntity r, r.change_type))) ∧
    List.Sorted EntityRepository.changedAtLe
      (List.insertionSort EntityRepository.changedAtLe
        (st.entity_versions.filter (fun r => decide (v < r.version)))) :=
  ⟨changes_since_wf st v hwf,
   List.sorted_insertionSort EntityRepository.changedAtLe _⟩

/-- C1 witness: the per-entity characterization of changes_since evaluated on
a one-entity store with a single create record. -/
theorem C1_changes_since_witness :
    EntityRepository.get_changes_since
      { entities :=
          [{ id := "feature-a", type := "feature", status := "planned",
             data := [], version := 1, created_at := 0, updated_at := 0 }],
        entity_versions :=
          [{ id := "feature-a" ++ ":" ++ intToStr 1, entity_id := "feature-a",
             version := 1, change_type := "create", changed_at := 1,
             data_snapshot := some (Entity.toDict
               { id := "feature-a", type := "feature", status := "planned",
                 data := [], version := 1, created_at := 0, updated_at := 0 }) }] } 0 =
      .ok ((List.insertionSort EntityRepository.changedAtLe
        (List.filter (fun r => decide (0 < r.version))
          [{ id := "feature-a" ++ ":" ++ intToStr 1, entity_id := "feature-a",
             version := 1, change_type := "create", changed_at := 1,
             data_snapshot := some (Entity.toDict
               { id := "feature-a", type := "feature", status := "planned",
                 data := [], version := 1, created_at := 0, updated_at := 0 }) }])).map
        (fun r => (EntityRepository.snapEntity r, r.change_type))) ∧
    List.Sorted EntityRepository.changedAtLe
      (List.insertionSort EntityRepository.changedAtLe
        (List.filter (fun r => decide (0 < r.version))
          [{ id := "feature-a" ++ ":" ++ intToStr 1, entity_id := "feature-a",
             version := 1, change_type := "create", changed_at := 1,
             data_snapshot := some (Entity.toDict
               { id := "feature-a", type := "feature", status := "planned",
                 data := [], version := 1, created_at := 0, updated_at := 0 }) }])) :=
  C1_changes_since_per_entity
    { entities :=
        [{ id := "feature-a", type := "feature", status := "planned",
           data := [], version := 1, created_at := 0, updated_at := 0 }],
      entity_versions :=
        [{ id := "feature-a" ++ ":" ++ intToStr 1, entity_id := "feature-a",
           version := 1, change_type := "create", changed_at := 1,
           data_snapshot := some (Entity.toDict
             { id := "feature-a", type := "feature", status := "planned",
               data := [], version := 1, created_at := 0, updated_at := 0 }) }] } 0
    (by
      intro r hr
      rw [List.mem_singleton] at hr
      subst hr
      exact ⟨by decide, _, rfl, rfl⟩)

/-- C1 counterexample: on a store where entity a was created and updated
(versions 1 and 2) and entity b was created afterwards (version 1),
changes_since(1) returns only the single record with per-entity version 2 and
omits the create of b, while the spec-modelled store-wide counter (position in
the log) yields two records including the create of b.  The claimed store-wide
counter therefore does not describe the code. -/
theorem C1_counterexample :
    (∃ l, EntityRepository.get_changes_since
      { entities :=
          [{ id := "feature-a", type := "feature", status := "in_progress",
             data := [], version := 2, created_at := 0, updated_at := 2 },
           { id := "feature-b", type := "feature", status := "planned",
             data := [], version := 1, created_at := 3, updated_at := 3 }],
        entity_versions :=
          [{ id := "feature-a" ++ ":" ++ intToStr 1, entity_id := "feature-a",
             version := 1, change_type := "create", changed_at := 1,
             data_snapshot := some (Entity.toDict
               { id := "feature-a", type := "feature", status := "planned",
                 data := [], version := 1, created_at := 0, updated_at := 1 }) },
           { id := "feature-a" ++ ":" ++ intToStr 2, entity_id := "feature-a",
             version := 2, change_type := "update", changed_at := 2,
             data_snapshot := some (Entity.toDict
               { id := "feature-a", type := "feature", status := "in_progress",
                 data := [], version := 2, created_at := 0, updated_at := 2 }) },
           { id := "feature-b" ++ ":" ++ intToStr 1, entity_id := "feature-b",
             version := 1, change_type := "create", changed_at := 3,
             data_snapshot := some (Entity.toDict
               { id := "feature-b", type := "feature", status := "planned",
                 data := [], version := 1, created_at := 3, updated_at := 3 }) }] } 1 =
      .ok l ∧ l.length = 1 ∧ ∀ p ∈ l, ¬ p.1.id = "feature-b") ∧
    (changesSinceGlobalCounter
      { entities :=
          [{ id := "feature-a", type := "feature", status := "in_progress",
             data := [], version := 2, created_at := 0, updated_at := 2 },
           { id := "feature-b", type := "feature", status := "planned",
             data := [], version := 1, created_at := 3, updated_at := 3 }],
        entity_versions :=
          [{ id := "feature-a" ++ ":" ++ intToStr 1, entity_id := "feature-a",
             version := 1, change_type := "create", changed_at := 1,
             data_snapshot := some (Entity.toDict
               { id := "feature-a", type := "feature", status := "planned",
                 data := [], version := 1, created_at := 0, updated_at := 1 }) },
           { id := "feature-a" ++ ":" ++ intToStr 2, entity_id := "feature-a",
             version := 2, change_type := "update", changed_at := 2,
             data_snapshot := some (Entity.toDict
               { id := "feature-a", type := "feature", status := "in_progress",
                 data := [], version := 2, created_at := 0, updated_at := 2 }) },
           { id := "feature-b" ++ ":" ++ intToStr 1, entity_id := "feature-b",
             version := 1, change_type := "create", changed_at := 3,
             data_snapshot := some (Entity.toDict
               { id := "feature-b", type := "feature", status := "planned",
                 data := [], version := 1, created_at := 3, updated_at := 3 }) }] } 1).length = 2 ∧
    ∃ r2 ∈ changesSinceGlobalCounter
      { entities :=
          [{ id := "feature-a", type := "feature", status := "in_progress",
             data := [], version := 2, created_at := 0, updated_at := 2 },
           { id := "feature-b", type := "feature", status := "planned",
             data := [], version := 1, created_at := 3, updated_at := 3 }],
        entity_versions :=
          [{ id := "feature-a" ++ ":" ++ intToStr 1, entity_id := "feature-a",
             version := 1, change_type := "create", changed_at := 1,
             data_snapshot := some (Entity.toDict
               { id := "feature-a", type := "feature", status := "planned",
                 data := [], version := 1, created_at := 0, updated_at := 1 }) },
           { id := "feature-a" ++ ":" ++ intToStr 2, entity_id := "feature-a",
             version := 2, change_type := "update", changed_at := 2,
             data_snapshot := some (Entity.toDict
               { id := "feature-a", type := "feature", status := "in_progress",
                 data := [], version := 2, created_at := 0, updated_at := 2 }) },
           { id := "feature-b" ++ ":" ++ intToStr 1, entity_id := "feature-b",
             version := 1, change_type := "create", changed_at := 3,
             data_snapshot := some (Entity.toDict
               { id := "feature-b", type := "feature", status := "planned",
                 data := [], version := 1, created_at := 3, updated_at := 3 }) }] } 1,
      r2.entity_id = "feature-b" := by
  refine ⟨⟨[({ id := "feature-a", type := "feature", status := "in_progress",
               data := [], version := 2, created_at := 0, updated_at := 2 }, "update")],
      rfl, rfl, ?_⟩, rfl, ?_⟩
  · intro p hp
    rw [List.mem_singleton] at hp
    subst hp
    decide
  · refine ⟨{ id := "feature-b" ++ ":" ++ intToStr 1, entity_id := "feature-b",
              version := 1, change_type := "create", changed_at := 3,
              data_snapshot := some (Entity.toDict
                { id := "feature-b", type := "feature", status := "planned",
                  data := [], version := 1, created_at := 3, updated_at := 3 }) }, ?_, rfl⟩
    exact List.mem_cons_of_mem _ (List.mem_singleton.mpr rfl)

/-- C7: deleting an existing id snapshots the row, appends one delete record
with version current+1 carrying the pre-delete entity, and removes the row in
the same transaction; afterwards changes_since(0) contains that delete record
decoding to the pre-delete entity while read returns absent.  Deleting an id
that never existed returns false and appends no log entry. -/
theorem C7_delete_tombstone :
    (∀ (st : RepoState) (id0 : String) (now : Time) (r : EntityRow),
      (st.entities.map (fun x => x.id)).Nodup →
      st.entities.find? (fun r2 => r2.id == id0) = some r →
      (∀ vr ∈ st.entity_versions, ¬ vr.id = id0 ++ ":" ++ intToStr (r.version + 1)) →
      ':' ∉ id0.toList → 0 ≤ r.version →
      Entity.fromDict (EntityRepository.rowSnapshotDict r) =
        .ok (EntityRepository.rowToEntity r) →
      VersionLogWF st →
      ∃ st2, EntityRepository.delete st id0 now = .ok (true, st2) ∧
        st2.entity_versions = st.entity_versions ++
          [{ id := id0 ++ ":" ++ intToStr (r.version + 1), entity_id := id0,
             version := r.version + 1, change_type := "delete", changed_at := now,
             data_snapshot := some (EntityRepository.rowSnapshotDict r) }] ∧
        EntityRepository.read st2 id0 = none ∧
        ∃ l, EntityRepository.get_changes_since st2 0 = .ok l ∧
          (EntityRepository.rowToEntity r, "delete") ∈ l) ∧
    (∀ (st3 : RepoState) (id3 : String) (now3 : Time),
      EntityRepository.read st3 id3 = none →
      EntityRepository.delete st3 id3 now3 = .ok (false, st3)) := by
  constructor
  · intro st id0 now r hnodup hfind hvkey hid hver hdec hwf
    have hany : (st.entity_versions.any
        (fun vr => vr.id == id0 ++ ":" ++ intToStr (r.version + 1))) = false := by
      rw [List.any_eq_false]
      intro vr hvr hcon
      exact hvkey vr hvr (by simpa using hcon)
    have hnot : ¬ ((st.entity_versions.any
        (fun vr => vr.id == id0 ++ ":" ++ intToStr (r.version + 1))) = true) := by
      rw [hany]
      simp
    refine ⟨{ entities := st.entities.filter (fun r2 => ¬ r2.id == id0),
              entity_versions := st.entity_versions ++
                [{ id := id0 ++ ":" ++ intToStr (r.version + 1), entity_id := id0,
                   version := r.version + 1, change_type := "delete", changed_at := now,
                   data_snapshot := some (EntityRepository.rowSnapshotDict r) }] },
            ?_, rfl, ?_, ?_⟩
    · simp only [EntityRepository.delete, hfind, if_neg hnot]
    · rw [EntityRepository.read]
      have : (st.entities.filter (fun r2 => ¬ r2.id == id0)).find?
          (fun r2 => r2.id == id0) = none := by
        rw [List.find?_eq_none]
        intro x hx
        have := List.of_mem_filter hx
        simpa using this
      rw [this]
      rfl
    · set newrow : VersionRow :=
        { id := id0 ++ ":" ++ intToStr (r.version + 1), entity_id := id0,
          version := r.version + 1, change_type := "delete", changed_at := now,
          data_snapshot := some (EntityRepository.rowSnapshotDict r) } with hnew
      have hsnap : EntityRepository.snapEntity newrow = EntityRepository.rowToEntity r := by
        rw [EntityRepository.snapEntity]
        simp only [hnew, hdec]
      have hwf2 : VersionLogWF
          { entities := st.entities.filter (fun r2 => ¬ r2.id == id0),
            entity_versions := st.entity_versions ++ [newrow] } := by
        intro vr hvr
        rcases List.mem_append.mp hvr with hold | hnewm
        · exact hwf vr hold
        · rw [List.mem_singleton] at hnewm
          subst hnewm
          refine ⟨?_, EntityRepository.rowSnapshotDict r, rfl, ?_⟩
          · exact parsedCounter_append id0 (r.version + 1) (by omega) hid
          · rw [hsnap]
            exact hdec
      refine ⟨_, changes_since_wf _ 0 hwf2, ?_⟩
      have hmemf : newrow ∈ (st.entity_versions ++ [newrow]).filter
          (fun r2 => decide ((0 : Int) < r2.version)) := by
        rw [List.mem_filter]
        refine ⟨List.mem_append_right _ (List.mem_singleton.mpr rfl), ?_⟩
        simp only [hnew]
        simp
        omega
      have hmems : newrow ∈ List.insertionSort EntityRepository.changedAtLe
          ((st.entity_versions ++ [newrow]).filter
            (fun r2 => decide ((0 : Int) < r2.version))) :=
        (List.perm_insertionSort _ _).mem_iff.mpr hmemf
      have hthis := List.mem_map_of_mem
        (fun r2 => (EntityRepository.snapEntity r2, r2.change_type)) hmems
      simp only at hthis
      rw [hsnap] at hthis
      simpa [hnew] using hthis
  · intro st3 id3 now3 h
    have hidnone : st3.entities.find? (fun r2 => r2.id == id3) = none := by
      rw [EntityRepository.read] at h
      cases hf : st3.entities.find? (fun r2 => r2.id == id3) with
      | none => rfl
      | some r0 => rw [hf] at h; exact absurd h (by simp)
    rw [EntityRepository.delete, hidnone]

/-- C7 witness: deleting the only entity of a concrete store appends the
delete record with the pre-delete snapshot, removes the row, and keeps the
record visible through changes_since(0); reading an absent id gives a false
delete without a log entry. -/
theorem C7_delete_tombstone_witness :
    (∃ st2, EntityRepository.delete
      { entities :=
          [{ id := "feature-a", type := "feature", status := "planned",
             data := [], version := 1, created_at := 0, updated_at := 0 }],
        entity_versions :=
          [{ id := "feature-a" ++ ":" ++ intToStr 1, entity_id := "feature-a",
             version := 1, change_type := "create", changed_at := 1,
             data_snapshot := some (Entity.toDict
               { id := "feature-a", type := "feature", status := "planned",
                 data := [], version := 1, created_at := 0, updated_at := 0 }) }] }
      "feature-a" 9 = .ok (true, st2) ∧
      st2.entity_versions =
        [{ id := "feature-a" ++ ":" ++ intToStr 1, entity_id := "feature-a",
           version := 1, change_type := "create", changed_at := 1,
           data_snapshot := some (Entity.toDict
             { id := "feature-a", type := "feature", status := "planned",
               data := [], version := 1, created_at := 0, updated_at := 0 }) }] ++
        [{ id := "feature-a" ++ ":" ++ intToStr (1 + 1), entity_id := "feature-a",
           version := 1 + 1, change_type := "delete", changed_at := 9,
           data_snapshot := some (EntityRepository.rowSnapshotDict
             { id := "feature-a", type := "feature", status := "planned",
               data := [], version := 1, created_at := 0, updated_at := 0 }) }] ∧
      EntityRepository.read st2 "feature-a" = none ∧
      ∃ l, EntityRepository.get_changes_since st2 0 = .ok l ∧
        (EntityRepository.rowToEntity
          { id := "feature-a", type := "feature", status := "planned",
            data := [], version := 1, created_at := 0, updated_at := 0 }, "delete") ∈ l) ∧
    EntityRepository.delete RepoState.empty "feature-zzz" 4 = .ok (false, RepoState.empty) := by
  constructor
  · exact C7_delete_tombstone.1
      { entities :=
          [{ id := "feature-a", type := "feature", status := "planned",
             data := [], version := 1, created_at := 0, updated_at := 0 }],
        entity_versions :=
          [{ id := "feature-a" ++ ":" ++ intToStr 1, entity_id := "feature-a",
             version := 1, change_type := "create", changed_at := 1,
             data_snapshot := some (Entity.toDict
               { id := "feature-a", type := "feature", status := "planned",
                 data := [], version := 1, created_at := 0, updated_at := 0 }) }] }
      "feature-a" 9
      { id := "feature-a", type := "feature", status := "planned",
        data := [], version := 1, created_at := 0, updated_at := 0 }
      (by decide) rfl
      (by
        intro vr hvr
        rw [List.mem_singleton] at hvr
        subst hvr
        decide)
      (by decide) (by decide) rfl
      (by
        intro vr hvr
        rw [List.mem_singleton] at hvr
        subst hvr
        exact ⟨by decide, _, rfl, rfl⟩)
  · exact C7_delete_tombstone.2 RepoState.empty "feature-zzz" 4 rfl

theorem TrackerState.gsv_usv_self (t : TrackerState) (s : String) (v : Nat) :
    (t.update_site_version s v).get_site_version s = v := by
  rw [TrackerState.update_site_version, TrackerState.get_site_version]
  simp [List.find?_cons]

theorem applyChanges_tracker_spec (cs : List Change) :
    ∀ (tr : TrackerState) (rs : RepoState) (now : Time) (msg : String),
    ∃ ext, (SyncableRepository.applyChanges tr rs cs now msg).1.ledger = tr.ledger ++ ext ∧
      (∀ c ∈ ext, c ∈ cs) ∧
      (SyncableRepository.applyChanges tr rs cs now msg).1.site_id = tr.site_id ∧
      (SyncableRepository.applyChanges tr rs cs now msg).1.site_versions = tr.site_versions := by
  induction cs with
  | nil =>
      intro tr rs now msg
      exact ⟨[], by simp [SyncableRepository.applyChanges], by simp, rfl, rfl⟩
  | cons c rest ih =>
      intro tr rs now msg
      rw [SyncableRepository.applyChanges]
      by_cases hdup : (tr.ledger.any
          (fun d => d.site_id == c.site_id && d.origin_seq == c.origin_seq)) = true
      · have hstep : tr.apply_remote_change c = (false, tr) := by
          rw [TrackerState.apply_remote_change, if_pos hdup]
        rw [hstep]
        simp only [Bool.false_eq_true, if_false]
        obtain ⟨ext, h1, h2, h3, h4⟩ := ih tr rs now msg
        exact ⟨ext, h1, fun c2 hc2 => List.mem_cons_of_mem _ (h2 c2 hc2), h3, h4⟩
      · have hstep : tr.apply_remote_change c =
            (true, { tr with ledger := tr.ledger ++ [c] }) := by
          rw [TrackerState.apply_remote_change, if_neg hdup]
        rw [hstep]
        simp only [if_true]
        cases happly : SyncableRepository.applyEntityChange rs c now with
        | ok rs2 =>
            simp only [happly]
            obtain ⟨ext, h1, h2, h3, h4⟩ :=
              ih { tr with ledger := tr.ledger ++ [c] } rs2 now msg
            refine ⟨c :: ext, ?_, ?_, h3, h4⟩
            · rw [h1]
              simp
            · intro c2 hc2
              rcases List.mem_cons.mp hc2 with h | h
              · rw [h]; exact List.mem_cons_self _ _
              · exact List.mem_cons_of_mem _ (h2 c2 h)
        | error e =>
            simp only [happly]
            obtain ⟨ext, h1, h2, h3, h4⟩ :=
              ih { tr with ledger := tr.ledger ++ [c] } rs now msg
            refine ⟨c :: ext, ?_, ?_, h3, h4⟩
            · rw [h1]
              simp
            · intro c2 hc2
              rcases List.mem_cons.mp hc2 with h | h
              · rw [h]; exact List.mem_cons_self _ _
              · exact List.mem_cons_of_mem _ (h2 c2 h)

theorem sync_with_parts (a b : SyncSite) (now : Time) :
    (SyncableRepository.sync_with a b now).1.tracker.site_id = a.tracker.site_id ∧
    (SyncableRepository.sync_with a b now).2.1.tracker.site_id = b.tracker.site_id ∧
    (SyncableRepository.sync_with a b now).1.tracker.get_site_version b.tracker.site_id =
      a.tracker.ledger.length ∧
    (SyncableRepository.sync_with a b now).2.1.tracker.get_site_version a.tracker.site_id =
      b.tracker.ledger.length ∧
    ∃ extA extB,
      (SyncableRepository.sync_with a b now).1.tracker.ledger = a.tracker.ledger ++ extA ∧
      (SyncableRepository.sync_with a b now).2.1.tracker.ledger = b.tracker.ledger ++ extB ∧
      (∀ c ∈ extA, c ∈ b.tracker.ledger ∧ ¬ c.site_id = a.tracker.site_id) ∧
      (∀ c ∈ extB, c ∈ a.tracker.ledger ∧ ¬ c.site_id = b.tracker.site_id) := by
  obtain ⟨extA, ha1, ha2, ha3, ha4⟩ := applyChanges_tracker_spec
    ((b.tracker.get_changes_since (b.tracker.get_site_version a.tracker.site_id)).filter
      (fun c => ¬ c.site_id == a.tracker.site_id))
    a.tracker a.repo now "Error applying remote change "
  obtain ⟨extB, hb1, hb2, hb3, hb4⟩ := applyChanges_tracker_spec
    ((a.tracker.get_changes_since (a.tracker.get_site_version b.tracker.site_id)).filter
      (fun c => ¬ c.site_id == b.tracker.site_id))
    b.tracker b.repo now "Error applying local change "
  simp only [SyncableRepository.sync_with]
  refine ⟨ha3, hb3, ?_, ?_, extA, extB, ha1, hb1, ?_, ?_⟩
  · exact TrackerState.gsv_usv_self _ _ _
  · exact TrackerState.gsv_usv_self _ _ _
  · intro c hc
    have := ha2 c hc
    rw [List.mem_filter] at this
    obtain ⟨hmem, hpred⟩ := this
    refine ⟨List.mem_of_mem_drop hmem, ?_⟩
    simpa using hpred
  · intro c hc
    have := hb2 c hc
    rw [List.mem_filter] at this
    obtain ⟨hmem, hpred⟩ := this
    refine ⟨List.mem_of_mem_drop hmem, ?_⟩
    simpa using hpred

/-- C3: in a world of two sites, after one sync_with(A,B) completes, an
immediately repeated sync_with on the resulting pair (no intervening
mutation) reports zero changes sent and zero changes received: the advanced
watermarks already cover everything exchanged, and changes recorded from the
peer are excluded from echo by their originating site id. -/
theorem C3_sync_idempotent (a b : SyncSite) (t1 t2 : Time)
    (hA : ∀ c ∈ a.tracker.ledger,
      c.site_id = a.tracker.site_id ∨ c.site_id = b.tracker.site_id)
    (hB : ∀ c ∈ b.tracker.ledger,
      c.site_id = a.tracker.site_id ∨ c.site_id = b.tracker.site_id) :
    (SyncableRepository.sync_with (SyncableRepository.sync_with a b t1).1
      (SyncableRepository.sync_with a b t1).2.1 t2).2.2.changes_sent = 0 ∧
    (SyncableRepository.sync_with (SyncableRepository.sync_with a b t1).1
      (SyncableRepository.sync_with a b t1).2.1 t2).2.2.changes_received = 0 := by
  obtain ⟨hsidA, hsidB, hgsvA, hgsvB, extA, extB, hledA, hledB, hmemA, hmemB⟩ :=
    sync_with_parts a b t1
  set A1 : SyncSite := (SyncableRepository.sync_with a b t1).1 with hA1def
  set B1 : SyncSite := (SyncableRepository.sync_with a b t1).2.1 with hB1def
  have htoSend : (A1.tracker.get_changes_since
      (A1.tracker.get_site_version B1.tracker.site_id)).filter
      (fun c => ¬ c.site_id == B1.tracker.site_id) = [] := by
    rw [hsidB, hgsvA, TrackerState.get_changes_since, hledA, List.drop_left]
    rw [List.filter_eq_nil_iff]
    intro c hc
    obtain ⟨hcb, hcna⟩ := hmemA c hc
    rcases hB c hcb with h | h
    · exact absurd h hcna
    · simp [hsidB, h]
  have htoRecv : (B1.tracker.get_changes_since
      (B1.tracker.get_site_version A1.tracker.site_id)).filter
      (fun c => ¬ c.site_id == A1.tracker.site_id) = [] := by
    rw [hsidA, hgsvB, TrackerState.get_changes_since, hledB, List.drop_left]
    rw [List.filter_eq_nil_iff]
    intro c hc
    obtain ⟨hca, hcnb⟩ := hmemB c hc
    rcases hA c hca with h | h
    · simp [hsidA, h]
    · exact absurd h hcnb
  constructor
  · show ((A1.tracker.get_changes_since
        (A1.tracker.get_site_version B1.tracker.site_id)).filter
        (fun c => ¬ c.site_id == B1.tracker.site_id)).length = 0
    rw [htoSend]
    rfl
  · show (SyncableRepository.applyChanges A1.tracker A1.repo
        ((B1.tracker.get_changes_since
          (B1.tracker.get_site_version A1.tracker.site_id)).filter
          (fun c => ¬ c.site_id == A1.tracker.site_id)) t2
        "Error applying remote change ").2.2.1 = 0
    rw [htoRecv]
    rfl

/-- C3 witness: two concrete sites, one holding a single local change, synced
twice report zero sent and zero received on the second call. -/
theorem C3_sync_idempotent_witness :
    (SyncableRepository.sync_with
      (SyncableRepository.sync_with witnessSiteA witnessSiteB 1).1
      (SyncableRepository.sync_with witnessSiteA witnessSiteB 1).2.1 2).2.2.changes_sent = 0 ∧
    (SyncableRepository.sync_with
      (SyncableRepository.sync_with witnessSiteA witnessSiteB 1).1
      (SyncableRepository.sync_with witnessSiteA witnessSiteB 1).2.1 2).2.2.changes_received = 0 :=
  C3_sync_idempotent witnessSiteA witnessSiteB 1 2
    (by
      intro c hc
      rw [witnessSiteA] at hc
      rw [List.mem_singleton] at hc
      subst hc
      left
      rfl)
    (by
      intro c hc
      rw [witnessSiteB] at hc
      exact (List.not_mem_nil c hc).elim)

/-- C4 (amended): sync_with advances the watermarks only after both
application loops have run, but it advances them unconditionally to each
pre-sync current version of each side, regardless of the accumulated error list:
afterwards every change of the pre-sync peer ledger, including any whose
application failed, lies below the advanced watermark, so a later sync fetches
only entries recorded after the sync and does not retry the failed ones. -/
theorem C4_watermark_unconditional (a b : SyncSite) (now : Time) :
    (SyncableRepository.sync_with a b now).1.tracker.get_site_version b.tracker.site_id =
      a.tracker.current_version ∧
    (SyncableRepository.sync_with a b now).2.1.tracker.get_site_version a.tracker.site_id =
      b.tracker.current_version ∧
    (∀ c ∈ (SyncableRepository.sync_with a b now).1.tracker.get_changes_since
        ((SyncableRepository.sync_with a b now).1.tracker.get_site_version b.tracker.site_id),
      c ∈ b.tracker.ledger ∧ ¬ c.site_id = a.tracker.site_id) ∧
    (∀ c ∈ (SyncableRepository.sync_with a b now).2.1.tracker.get_changes_since
        ((SyncableRepository.sync_with a b now).2.1.tracker.get_site_version a.tracker.site_id),
      c ∈ a.tracker.ledger ∧ ¬ c.site_id = b.tracker.site_id) := by
  obtain ⟨hsidA, hsidB, hgsvA, hgsvB, extA, extB, hledA, hledB, hmemA, hmemB⟩ :=
    sync_with_parts a b now
  refine ⟨hgsvA, hgsvB, ?_, ?_⟩
  · intro c hc
    rw [TrackerState.get_changes_since, hgsvA, hledA, List.drop_left] at hc
    exact hmemA c hc
  · intro c hc
    rw [TrackerState.get_changes_since, hgsvB, hledB, List.drop_left] at hc
    exact hmemB c hc

/-- C4 counterexample: a change whose entity payload fails validation is
fetched from the peer, its application fails (the error list of the first sync
is nonempty), yet the watermark recorded at the peer advances to 1 and covers
it; the second sync reports no errors, performs no retry, and the entity is
still absent from the receiving store.  The claim that a failed change is
never covered by the advanced watermark and is retried later is therefore
false at this input. -/
theorem C4_counterexample :
    ¬ (SyncableRepository.sync_with poisonSiteA poisonSiteB 1).2.2.errors = [] ∧
    (SyncableRepository.sync_with poisonSiteA poisonSiteB 1).2.1.tracker.get_site_version
      "site-a" = 1 ∧
    (SyncableRepository.sync_with
      (SyncableRepository.sync_with poisonSiteA poisonSiteB 1).1
      (SyncableRepository.sync_with poisonSiteA poisonSiteB 1).2.1 2).2.2.errors = [] ∧
    EntityRepository.read
      (SyncableRepository.sync_with
        (SyncableRepository.sync_with poisonSiteA poisonSiteB 1).1
        (SyncableRepository.sync_with poisonSiteA poisonSiteB 1).2.1 2).1.repo "x" = none := by
  refine ⟨by decide, by decide, by decide, rfl⟩
